import Mathlib

/-!
Shallow embedding of the soap-formulation engine of this repository
(`src/chemistry/soap_calculator.py`, `src/main_auto.py`,
`src/models/recipe.py`), together with theorems settling the frozen
claims about it.

Conventions of the embedding:
* numbers are rationals (`ℚ`); Python's builtin `round(x, n)`
  (round-half-to-even) is modelled exactly on `ℚ`;
* Python dicts are modelled as insertion-ordered association lists
  (`Dict`), with Python's assignment and `get` semantics;
* code that can raise an exception is modelled in `Except String`;
* the oil and modifier databases are loaded at run time from JSON data
  files that are not part of the source tree, so every calculator
  function is parameterised by the database (`OilsDB`, `ModifiersDB`),
  exactly as the Python methods are parameterised by `self.oils_db` /
  `self.modifiers_db`.  Concrete example databases with realistic
  values are defined below for witnesses and counterexamples.
-/

/-- Round-half-to-even on rationals: the exact-arithmetic content of
Python's builtin `round` to zero digits. -/
def roundHE (x : ℚ) : ℤ :=
  if x - ⌊x⌋ < 1/2 then ⌊x⌋
  else if 1/2 < x - ⌊x⌋ then ⌊x⌋ + 1
  else if 2 ∣ ⌊x⌋ then ⌊x⌋ else ⌊x⌋ + 1

/-- Python's `round(x, 2)` on rationals. -/
def round2 (x : ℚ) : ℚ := (roundHE (x * 100) : ℚ) / 100

/-- Python's `round(x, 1)` on rationals. -/
def round1 (x : ℚ) : ℚ := (roundHE (x * 10) : ℚ) / 10

/-- A Python `dict {str: float}` as an insertion-ordered association list. -/
abbrev Dict := List (String × ℚ)

/-- Python dict assignment `d[k] = v`: overwrite in place if the key is
present, otherwise append at the end. -/
def dset : Dict → String → ℚ → Dict
  | [], k, v => [(k, v)]
  | p :: rest, k, v => if p.1 = k then (k, v) :: rest else p :: dset rest k v

/-- Python `d.get(k, dflt)`. -/
def dget : Dict → String → ℚ → ℚ
  | [], _, dflt => dflt
  | p :: rest, k, dflt => if p.1 = k then p.2 else dget rest k dflt

/-- The keys of a dict, in order. -/
def dkeys (d : Dict) : List String := d.map Prod.fst

/-- `sum(d.values())`. -/
def dsum (d : Dict) : ℚ := (d.map Prod.snd).sum

/-- `{k: round(v, 2) for k, v in d.items()}` (the final rounding pass of
both recipe generators). -/
def roundDict (d : Dict) : Dict := d.map (fun p => (p.1, round2 p.2))

/-- `for oil in l: recipe[oil] = per` -/
def allocSet (d : Dict) (l : List String) (per : ℚ) : Dict :=
  l.foldl (fun r o => dset r o per) d

/-- `for oil in l: recipe[oil] = recipe.get(oil, 0) + per` -/
def allocAdd (d : Dict) (l : List String) (per : ℚ) : Dict :=
  l.foldl (fun r o => dset r o (dget r o 0 + per)) d

/-- One guarded allocation block of the multi-oil branch of
`generate_recipe`: `if X: per = amount/len(X); for oil in X: recipe[oil] = per;
remaining -= amount`.  The state is `(recipe, remaining_oz)`. -/
def allocStep (st : Dict × ℚ) (X : List String) (amount : ℚ) : Dict × ℚ :=
  if X ≠ [] then (allocSet st.1 X (amount / X.length), st.2 - amount) else st

/-- The seven soap-property scores tracked by `calculate_soap_properties`. -/
@[ext]
structure OilProps where
  hardness : ℚ
  cleansing : ℚ
  conditioning : ℚ
  bubbly : ℚ
  creamy : ℚ
  iodine : ℚ
  ins : ℚ
deriving DecidableEq

/-- The eight fatty acids tracked by `calculate_fatty_acid_profile`. -/
@[ext]
structure FattyAcidVec where
  lauric : ℚ
  myristic : ℚ
  palmitic : ℚ
  stearic : ℚ
  ricinoleic : ℚ
  oleic : ℚ
  linoleic : ℚ
  linolenic : ℚ
deriving DecidableEq

/-- One oil record of the oils database (`data/oils.json`). -/
structure Oil where
  sap_naoh : ℚ
  sap_koh : ℚ
  properties : OilProps
  fatty_acids : FattyAcidVec
deriving DecidableEq

/-- One modifier record of the modifiers database (`data/modifiers.json`).
Optional fields model keys that a record may lack. -/
structure Modifier where
  typical_usage_percent : Option ℚ
  usage_rate_type : Option String
  lye_adjustment_factor : Option ℚ
deriving DecidableEq

/-- `self.oils_db`: name-keyed lookup. -/
abbrev OilsDB := String → Option Oil

/-- `self.modifiers_db`: name-keyed lookup. -/
abbrev ModifiersDB := String → Option Modifier

/-- `sap_key = 'sap_naoh' if lye_type == 'NaOH' else 'sap_koh'` followed by
the field access. -/
def sapValue (lye_type : String) (oil : Oil) : ℚ :=
  if lye_type = "NaOH" then oil.sap_naoh else oil.sap_koh

/-- The oil loop of `calculate_lye_amount`: accumulate `weight * sap_value`,
raising `ValueError` at the first oil name missing from the database. -/
def sumSap (db : OilsDB) (lye_type : String) : Dict → Except String ℚ
  | [] => .ok 0
  | (oil_name, weight) :: rest =>
    match db oil_name with
    | none => .error ("Oil '" ++ oil_name ++ "' not found in database")
    | some oil => (sumSap db lye_type rest).map (fun s => weight * sapValue lye_type oil + s)

/-- The modifier loop of `calculate_lye_amount`: modifiers absent from the
database, or without a `lye_adjustment_factor`, contribute 0. -/
def lyeAdjustment (mdb : ModifiersDB) : Dict → ℚ
  | [] => 0
  | (modifier_name, amount) :: rest =>
    (match mdb modifier_name with
     | none => 0
     | some m =>
       match m.lye_adjustment_factor with
       | none => 0
       | some factor => amount * factor) + lyeAdjustment mdb rest

/-- `SoapChemistry.calculate_lye_amount`.  Returns the pair
`(round(total_lye, 2), round(lye_adjustment, 2))`; raises (models
`ValueError`) when an oil name is not in the database. -/
def calculate_lye_amount (db : OilsDB) (mdb : ModifiersDB) (oil_weights : Dict)
    (superfat_percent : ℚ) (modifiers : Option Dict) (lye_type : String) :
    Except String (ℚ × ℚ) :=
  (sumSap db lye_type oil_weights).map fun total_lye =>
    (round2 (total_lye * (1 - superfat_percent / 100)),
     round2 (match modifiers with | none => 0 | some mods => lyeAdjustment mdb mods))

/-- `SoapChemistry.calculate_water_amount`.  Python raises
`ZeroDivisionError` when the concentration is 0. -/
def calculate_water_amount (lye_weight : ℚ) (lye_concentration : ℚ) : Except String ℚ :=
  if lye_concentration = 0 then .error "ZeroDivisionError: division by zero"
  else .ok (round2 (lye_weight * (100 - lye_concentration) / lye_concentration))

/-- `properties[prop] += oil_props[prop] * percentage` over all seven keys. -/
def addScaledProps (acc : OilProps) (p : OilProps) (c : ℚ) : OilProps :=
  ⟨acc.hardness + p.hardness * c, acc.cleansing + p.cleansing * c,
   acc.conditioning + p.conditioning * c, acc.bubbly + p.bubbly * c,
   acc.creamy + p.creamy * c, acc.iodine + p.iodine * c, acc.ins + p.ins * c⟩

def zeroProps : OilProps := ⟨0, 0, 0, 0, 0, 0, 0⟩

/-- The oil loop of `calculate_soap_properties`: oils missing from the
database are skipped (`continue`), yet `total_weight` was computed over
ALL entries. -/
def accumProps (db : OilsDB) (total : ℚ) : Dict → OilProps → OilProps
  | [], acc => acc
  | (oil_name, weight) :: rest, acc =>
    accumProps db total rest
      (match db oil_name with
       | none => acc
       | some oil => addScaledProps acc oil.properties (weight / total))

def round1Props (p : OilProps) : OilProps :=
  ⟨round1 p.hardness, round1 p.cleansing, round1 p.conditioning, round1 p.bubbly,
   round1 p.creamy, round1 p.iodine, round1 p.ins⟩

/-- `SoapChemistry.calculate_soap_properties`.  `none` models Python's
`return {}` for a zero total weight — an ordinary empty-dict return
value, not an exception. -/
def calculate_soap_properties (db : OilsDB) (oil_weights : Dict) : Option OilProps :=
  if dsum oil_weights = 0 then none
  else some (round1Props (accumProps db (dsum oil_weights) oil_weights zeroProps))

def addScaledFA (acc : FattyAcidVec) (p : FattyAcidVec) (c : ℚ) : FattyAcidVec :=
  ⟨acc.lauric + p.lauric * c, acc.myristic + p.myristic * c,
   acc.palmitic + p.palmitic * c, acc.stearic + p.stearic * c,
   acc.ricinoleic + p.ricinoleic * c, acc.oleic + p.oleic * c,
   acc.linoleic + p.linoleic * c, acc.linolenic + p.linolenic * c⟩

def zeroFA : FattyAcidVec := ⟨0, 0, 0, 0, 0, 0, 0, 0⟩

def accumFA (db : OilsDB) (total : ℚ) : Dict → FattyAcidVec → FattyAcidVec
  | [], acc => acc
  | (oil_name, weight) :: rest, acc =>
    accumFA db total rest
      (match db oil_name with
       | none => acc
       | some oil => addScaledFA acc oil.fatty_acids (weight / total))

def round1FA (p : FattyAcidVec) : FattyAcidVec :=
  ⟨round1 p.lauric, round1 p.myristic, round1 p.palmitic, round1 p.stearic,
   round1 p.ricinoleic, round1 p.oleic, round1 p.linoleic, round1 p.linolenic⟩

/-- `SoapChemistry.calculate_fatty_acid_profile`; `none` models `return {}`
for a zero total weight. -/
def calculate_fatty_acid_profile (db : OilsDB) (oil_weights : Dict) : Option FattyAcidVec :=
  if dsum oil_weights = 0 then none
  else some (round1FA (accumFA db (dsum oil_weights) oil_weights zeroFA))

/-- `SoapChemistry.calculate_fragrance_amount`. -/
def calculate_fragrance_amount (total_oil_weight : ℚ) (fragrance_percent : ℚ) : ℚ :=
  round2 (total_oil_weight * fragrance_percent / 100)

/-- `SoapChemistry.calculate_modifier_amount`: an unknown modifier name
returns `0.0` immediately. -/
def calculate_modifier_amount (mdb : ModifiersDB) (modifier_name : String)
    (total_oil_weight : ℚ) (usage_percent : Option ℚ) : ℚ :=
  match mdb modifier_name with
  | none => 0
  | some m =>
    let up := usage_percent.getD (m.typical_usage_percent.getD 1)
    let usage_type := m.usage_rate_type.getD "percent_of_oils"
    if usage_type = "percent_of_oils" then round2 (total_oil_weight * up / 100) else up

/-- The spec-side formula for the property numerator: the KNOWN
ingredients' weighted property contributions (missing names contribute
nothing to any numerator).  Used to state the refinement claims about
`calculate_soap_properties`. -/
def numerProps (db : OilsDB) : Dict → OilProps
  | [] => zeroProps
  | (oil_name, weight) :: rest =>
    match db oil_name with
    | none => numerProps db rest
    | some oil => addScaledProps (numerProps db rest) oil.properties weight

/-- Spec-side formula for the fatty-acid numerator. -/
def numerFA (db : OilsDB) : Dict → FattyAcidVec
  | [] => zeroFA
  | (oil_name, weight) :: rest =>
    match db oil_name with
    | none => numerFA db rest
    | some oil => addScaledFA (numerFA db rest) oil.fatty_acids weight

/-- Extend a database with an all-zero oil under one extra name.  Used to
express that a missing name's property contributions are skipped. -/
def extendDB (db : OilsDB) (name : String) : OilsDB :=
  fun n => if n = name then some ⟨0, 0, zeroProps, zeroFA⟩ else db n

/-! ### The `Recipe` model (`src/models/recipe.py`) -/

/-- `Recipe`: user inputs plus the derived fields filled in by the
chemistry calculator.  `properties` and `fatty_acids` are stored as the
plain dicts the calculator produced. -/
structure Recipe where
  name : String
  oils : Dict
  superfat : ℚ
  lye_concentration : ℚ
  fragrance_percent : ℚ
  notes : String
  modifiers : Dict
  created_date : String
  modified_date : String
  lye_amount : ℚ
  water_amount : ℚ
  fragrance_amount : ℚ
  lye_adjustment : ℚ
  properties : Dict
  fatty_acids : Dict
deriving DecidableEq

/-- The JSON dictionary produced by `Recipe.to_dict` / consumed by
`Recipe.from_dict`.  All keys except `name` and `oils` are read back
with `data.get(..., default)`, hence `Option`. -/
structure RecipeData where
  name : String
  oils : Dict
  superfat : Option ℚ
  lye_concentration : Option ℚ
  fragrance_percent : Option ℚ
  notes : Option String
  modifiers : Option Dict
  created_date : Option String
  modified_date : Option String
  lye_amount : Option ℚ
  water_amount : Option ℚ
  fragrance_amount : Option ℚ
  lye_adjustment : Option ℚ
  properties : Option Dict
  fatty_acids : Option Dict
deriving DecidableEq

/-- `Recipe.to_dict`: every field is serialized. -/
def Recipe.to_dict (r : Recipe) : RecipeData :=
  ⟨r.name, r.oils, some r.superfat, some r.lye_concentration, some r.fragrance_percent,
   some r.notes, some r.modifiers, some r.created_date, some r.modified_date,
   some r.lye_amount, some r.water_amount, some r.fragrance_amount, some r.lye_adjustment,
   some r.properties, some r.fatty_acids⟩

/-- `Recipe.from_dict`.  `now` models `datetime.now().isoformat()`, the
constructor's default for both date fields; missing keys fall back to the
constructor defaults, and the derived fields default to `0.0` / `{}`
without any recomputation. -/
def Recipe.from_dict (now : String) (d : RecipeData) : Recipe :=
  ⟨d.name, d.oils, d.superfat.getD 5, d.lye_concentration.getD 33,
   d.fragrance_percent.getD 3, d.notes.getD "", d.modifiers.getD [],
   d.created_date.getD now, d.modified_date.getD now,
   d.lye_amount.getD 0, d.water_amount.getD 0, d.fragrance_amount.getD 0,
   d.lye_adjustment.getD 0, d.properties.getD [], d.fatty_acids.getD []⟩

/-! ### The allocation solver (`src/main_auto.py`, `AutoRecipeGenerator`) -/

/-- `OIL_CATEGORIES['base']` -/
def baseOils : List String :=
  ["Olive Oil", "Sunflower Oil", "Sweet Almond Oil", "Rice Bran Oil", "Canola Oil",
   "Apricot Kernel Oil", "Avocado Oil", "Hazelnut Oil", "Macadamia Nut Oil"]

/-- `OIL_CATEGORIES['hard']` -/
def hardOils : List String :=
  ["Coconut Oil", "Palm Oil", "Cocoa Butter", "Shea Butter", "Babassu Oil",
   "Beeswax", "Mango Butter"]

/-- `OIL_CATEGORIES['super_fat']` -/
def superFatOils : List String := ["Castor Oil", "Jojoba Oil"]

/-- `OIL_CATEGORIES['conditioning']` -/
def conditioningOils : List String :=
  ["Beef Tallow", "Lard", "Grapeseed Oil", "Hemp Seed Oil", "Safflower Oil"]

/-- `OIL_CATEGORIES['specialty']` -/
def specialtyOils : List String := ["Argan Oil", "Neem Oil"]

/-- An oil name belonging to at least one allocation category. -/
def categorized (o : String) : Prop :=
  o ∈ baseOils ∨ o ∈ hardOils ∨ o ∈ superFatOils ∨ o ∈ conditioningOils ∨ o ∈ specialtyOils

instance (o : String) : Decidable (categorized o) := by
  unfold categorized; infer_instance

/-- The target-property dictionary handed to `generate_targeted_recipe`;
each key is read with `target_props.get(key, default)`, hence `Option`.
A `TargetProps` value models a non-empty Python dict (an empty or `None`
`target_props` is falsy and routes to the untargeted branch). -/
structure TargetProps where
  hardness : Option ℚ
  cleansing : Option ℚ
  conditioning : Option ℚ
  bubbly : Option ℚ
  creamy : Option ℚ
deriving DecidableEq

/-- The six category shares (`base_pct` … `specialty_pct`). -/
structure Shares where
  base : ℚ
  coconut : ℚ
  hard : ℚ
  animal : ℚ
  castor : ℚ
  specialty : ℚ
deriving DecidableEq

def sharesTotal (s : Shares) : ℚ :=
  s.base + s.coconut + s.hard + s.animal + s.castor + s.specialty

/-- Lines 171–226 of `generate_targeted_recipe`: normalized target factors
and the per-category affine share formulas, before the no-base
compensation block. -/
def sharesBase (sel : List String) (tp : TargetProps) : Shares :=
  let hardness_factor := (tp.hardness.getD 40 - 29) / 25
  let cleansing_factor := (tp.cleansing.getD 15 - 12) / 10
  let conditioning_factor := (tp.conditioning.getD 55 - 44) / 25
  let bubbly_factor := (tp.bubbly.getD 25 - 14) / 32
  let creamy_factor := (tp.creamy.getD 30 - 16) / 32
  let coconut_need := max cleansing_factor bubbly_factor
  { base := if sel.filter (· ∈ baseOils) ≠ [] then 0.30 + conditioning_factor * 0.30 else 0
    coconut := if "Coconut Oil" ∈ sel.filter (· ∈ hardOils) then 0.15 + coconut_need * 0.35 else 0
    hard := if (sel.filter (· ∈ hardOils)).filter (· ≠ "Coconut Oil") ≠ [] then
        0.10 + hardness_factor * 0.15 else 0
    animal := if sel.filter (· ∈ conditioningOils) ≠ [] then 0.10 + creamy_factor * 0.20 else 0
    castor := if sel.filter (· ∈ superFatOils) ≠ [] then 0.05 + creamy_factor * 0.05 else 0
    specialty := if sel.filter (· ∈ specialtyOils) ≠ [] then
        0.03 + conditioning_factor * 0.02 else 0 }

/-- Lines 228–238: `if not has_base:` scale coconut ×0.6, animal ×1.8 and
the other hard oils ×1.5 (each under its own availability guard). -/
def compensate (sel : List String) (s : Shares) : Shares :=
  if sel.filter (· ∈ baseOils) ≠ [] then s
  else
    { s with
      coconut := if "Coconut Oil" ∈ sel.filter (· ∈ hardOils) then s.coconut * 0.6 else s.coconut
      animal := if sel.filter (· ∈ conditioningOils) ≠ [] then s.animal * 1.8 else s.animal
      hard := if (sel.filter (· ∈ hardOils)).filter (· ≠ "Coconut Oil") ≠ [] then
          s.hard * 1.5 else s.hard }

def sharesPreNorm (sel : List String) (tp : TargetProps) : Shares :=
  compensate sel (sharesBase sel tp)

/-- Lines 240–248: `if total_pct > 0:` divide every share by the running
total; otherwise the shares are left untouched. -/
def normalizeShares (s : Shares) : Shares :=
  if 0 < sharesTotal s then
    ⟨s.base / sharesTotal s, s.coconut / sharesTotal s, s.hard / sharesTotal s,
     s.animal / sharesTotal s, s.castor / sharesTotal s, s.specialty / sharesTotal s⟩
  else s

def sharesNormalized (sel : List String) (tp : TargetProps) : Shares :=
  normalizeShares (sharesPreNorm sel tp)

/-- Lines 250–292: distribute each category's share equally over its
selected members ('Coconut Oil' handled separately). -/
def buildAlloc (sel : List String) (total_oz : ℚ) (s : Shares) : Dict :=
  let selected_base := sel.filter (· ∈ baseOils)
  let selected_hard := sel.filter (· ∈ hardOils)
  let selected_super := sel.filter (· ∈ superFatOils)
  let selected_cond := sel.filter (· ∈ conditioningOils)
  let selected_specialty := sel.filter (· ∈ specialtyOils)
  let r : Dict := []
  let r := if selected_base ≠ [] then
      allocSet r selected_base (total_oz * s.base / selected_base.length) else r
  let r := if "Coconut Oil" ∈ selected_hard then
      dset r "Coconut Oil" (total_oz * s.coconut) else r
  let selected_hard2 := selected_hard.filter (· ≠ "Coconut Oil")
  let r := if selected_hard2 ≠ [] then
      allocAdd r selected_hard2 (total_oz * s.hard / selected_hard2.length) else r
  let r := if selected_cond ≠ [] then
      allocAdd r selected_cond (total_oz * s.animal / selected_cond.length) else r
  let r := if selected_super ≠ [] then
      allocAdd r selected_super (total_oz * s.castor / selected_super.length) else r
  let r := if selected_specialty ≠ [] then
      allocAdd r selected_specialty (total_oz * s.specialty / selected_specialty.length) else r
  r

/-- `AutoRecipeGenerator.generate_targeted_recipe`. -/
def generate_targeted_recipe (selected_oils : List String) (total_oz : ℚ)
    (tp : TargetProps) : Dict :=
  let r := buildAlloc selected_oils total_oz (sharesNormalized selected_oils tp)
  let current_total := dsum r
  let r := if 0 < current_total then
      r.map (fun p => (p.1, p.2 * (total_oz / current_total))) else r
  roundDict r

/-- `AutoRecipeGenerator.generate_recipe`.  The only possible exception is
the `[0]` indexing in the three-oil branch (`IndexError`, reachable only
for selections with repeated names), modelled in `Except`. -/
def generate_recipe (selected_oils : List String) (total_weight_lbs : ℚ)
    (target_props : Option TargetProps) : Except String Dict :=
  match selected_oils with
  | [] => .ok []
  | o0 :: rest =>
    let sel := o0 :: rest
    let total_oz := total_weight_lbs * 16
    match target_props with
    | some tp => .ok (generate_targeted_recipe sel total_oz tp)
    | none =>
      let selected_base := sel.filter (· ∈ baseOils)
      let selected_hard := sel.filter (· ∈ hardOils)
      let selected_super := sel.filter (· ∈ superFatOils)
      let selected_cond := sel.filter (· ∈ conditioningOils)
      let selected_specialty := sel.filter (· ∈ specialtyOils)
      let recipeE : Except String Dict :=
        if sel.length = 1 then
          .ok (dset [] o0 total_oz)
        else if sel.length = 2 then
          match selected_base, selected_hard with
          | b0 :: _, h0 :: _ =>
            .ok (dset (dset [] b0 (total_oz * 0.70)) h0 (total_oz * 0.30))
          | _, _ =>
            .ok (dset (dset [] o0 (total_oz * 0.60)) (rest.headD "") (total_oz * 0.40))
        else if sel.length = 3 then
          match selected_base, selected_hard with
          | b0 :: _, h0 :: _ =>
            match sel.filter (· ∉ [b0, h0]) with
            | other :: _ =>
              .ok (dset (dset (dset [] b0 (total_oz * 0.50)) h0 (total_oz * 0.30))
                    other (total_oz * 0.20))
            | [] => .error "IndexError: list index out of range"
          | _, _ => .ok (allocSet [] sel (total_oz / 3))
        else
          let st1 := allocStep ([], total_oz) selected_base (total_oz * 0.45)
          let st2 := allocStep st1 selected_hard (min (total_oz * 0.30) st1.2)
          let st3 := allocStep st2 selected_cond (min (total_oz * 0.18) st2.2)
          let st4 := allocStep st3 selected_super (min (total_oz * 0.07) st3.2)
          let st5 := allocStep st4 selected_specialty (min (total_oz * 0.05) st4.2)
          .ok (if 1/100 < st5.2 ∧ st5.1 ≠ [] then
                 st5.1.map (fun p => (p.1, p.2 + st5.2 / st5.1.length))
               else st5.1)
      recipeE.map roundDict

/-- The documented valid ranges of the five targetable properties, the
ranges the GUI sliders enforce (hardness 29–54, cleansing 12–22,
conditioning 44–69, bubbly 14–46, creamy 16–48). -/
def InRange (tp : TargetProps) : Prop :=
  29 ≤ tp.hardness.getD 40 ∧ tp.hardness.getD 40 ≤ 54 ∧
  12 ≤ tp.cleansing.getD 15 ∧ tp.cleansing.getD 15 ≤ 22 ∧
  44 ≤ tp.conditioning.getD 55 ∧ tp.conditioning.getD 55 ≤ 69 ∧
  14 ≤ tp.bubbly.getD 25 ∧ tp.bubbly.getD 25 ≤ 46 ∧
  16 ≤ tp.creamy.getD 30 ∧ tp.creamy.getD 30 ≤ 48

instance (tp : TargetProps) : Decidable (InRange tp) := by
  unfold InRange; infer_instance

/-! ### Example database instances

The JSON database files (`data/oils.json`, `data/modifiers.json`) are not
part of the source tree; these concrete instances carry realistic values
and serve as inputs for witnesses and counterexamples. -/

def oliveOil : Oil :=
  { sap_naoh := 0.134, sap_koh := 0.188,
    properties := ⟨17, 0, 82, 0, 0, 85, 109⟩,
    fatty_acids := ⟨0, 0, 14, 3, 0, 69, 12, 1⟩ }

def coconutOil : Oil :=
  { sap_naoh := 0.178, sap_koh := 0.25,
    properties := ⟨79, 67, 10, 67, 12, 10, 258⟩,
    fatty_acids := ⟨48, 19, 9, 3, 0, 8, 2, 0⟩ }

def exampleOilsDB : OilsDB := fun n =>
  if n = "Olive Oil" then some oliveOil
  else if n = "Coconut Oil" then some coconutOil
  else none

def citricAcid : Modifier := ⟨some 2, some "percent_of_oils", some 0.6⟩

def exampleModifiersDB : ModifiersDB := fun n =>
  if n = "Citric Acid" then some citricAcid else none

/-! ## Rounding lemmas -/

theorem roundHE_close (x : ℚ) : |(roundHE x : ℚ) - x| ≤ 1/2 := by
  have h0 : ((⌊x⌋ : ℤ) : ℚ) ≤ x := Int.floor_le x
  have h1 : x < (⌊x⌋ : ℚ) + 1 := Int.lt_floor_add_one x
  unfold roundHE
  split_ifs with hc1 hc2 hc3 <;> push_cast <;> rw [abs_le] <;>
    constructor <;> linarith

theorem round2_close (x : ℚ) : |round2 x - x| ≤ 1/200 := by
  have h := roundHE_close (x * 100)
  have e : round2 x - x = ((roundHE (x * 100) : ℚ) - x * 100) / 100 := by
    unfold round2; ring
  rw [abs_le] at h ⊢
  rw [e]
  constructor <;> [linarith [h.1]; linarith [h.2]]

theorem round1_close (x : ℚ) : |round1 x - x| ≤ 1/20 := by
  have h := roundHE_close (x * 10)
  have e : round1 x - x = ((roundHE (x * 10) : ℚ) - x * 10) / 10 := by
    unfold round1; ring
  rw [abs_le] at h ⊢
  rw [e]
  constructor <;> [linarith [h.1]; linarith [h.2]]

/-- Evaluation rule for `roundHE` when `x` rounds down. -/
theorem roundHE_eq (x : ℚ) (z : ℤ) (h1 : (z : ℚ) ≤ x) (h2 : x < z + 1/2) :
    roundHE x = z := by
  have hf : ⌊x⌋ = z := by
    rw [Int.floor_eq_iff]
    exact ⟨h1, by linarith⟩
  unfold roundHE
  rw [hf, if_pos (by push_cast; linarith)]

/-- Evaluation rule for `roundHE` when `x` rounds up. -/
theorem roundHE_eq_up (x : ℚ) (z : ℤ) (h1 : (z : ℚ) + 1/2 < x) (h2 : x < z + 1) :
    roundHE x = z + 1 := by
  have hf : ⌊x⌋ = z := by
    rw [Int.floor_eq_iff]
    exact ⟨by linarith, h2⟩
  unfold roundHE
  rw [hf, if_neg (by push_cast; linarith), if_pos (by push_cast; linarith)]

theorem round2_eq (x : ℚ) (z : ℤ) (h1 : (z : ℚ) ≤ x * 100) (h2 : x * 100 < z + 1/2) :
    round2 x = z / 100 := by
  unfold round2; rw [roundHE_eq _ z h1 h2]

theorem round2_eq_up (x : ℚ) (z : ℤ) (h1 : (z : ℚ) + 1/2 < x * 100) (h2 : x * 100 < z + 1) :
    round2 x = (z + 1) / 100 := by
  unfold round2; rw [roundHE_eq_up _ z h1 h2]; push_cast; ring

theorem round1_eq (x : ℚ) (z : ℤ) (h1 : (z : ℚ) ≤ x * 10) (h2 : x * 10 < z + 1/2) :
    round1 x = z / 10 := by
  unfold round1; rw [roundHE_eq _ z h1 h2]

theorem round2_zero : round2 0 = 0 := by
  have := round2_eq 0 0 (by norm_num) (by norm_num)
  simpa using this

/-! ## Dict lemmas -/

@[simp] theorem dsum_nil : dsum [] = 0 := rfl

@[simp] theorem dsum_cons (p : String × ℚ) (d : Dict) : dsum (p :: d) = p.2 + dsum d := by
  simp [dsum]

theorem dsum_append (d1 d2 : Dict) : dsum (d1 ++ d2) = dsum d1 + dsum d2 := by
  simp [dsum]

@[simp] theorem dkeys_nil : dkeys [] = [] := rfl

@[simp] theorem dkeys_cons (p : String × ℚ) (d : Dict) : dkeys (p :: d) = p.1 :: dkeys d := rfl

theorem dkeys_append (d1 d2 : Dict) : dkeys (d1 ++ d2) = dkeys d1 ++ dkeys d2 := by
  simp [dkeys]

theorem dset_fresh (d : Dict) (k : String) (v : ℚ) (h : k ∉ dkeys d) :
    dset d k v = d ++ [(k, v)] := by
  induction d with
  | nil => rfl
  | cons p rest ih =>
    simp only [dkeys_cons, List.mem_cons, not_or] at h
    simp only [dset, if_neg (Ne.symm h.1), List.cons_append]
    rw [ih h.2]

theorem dget_fresh (d : Dict) (k : String) (dflt : ℚ) (h : k ∉ dkeys d) :
    dget d k dflt = dflt := by
  induction d with
  | nil => rfl
  | cons p rest ih =>
    simp only [dkeys_cons, List.mem_cons, not_or] at h
    simp only [dget, if_neg (Ne.symm h.1)]
    exact ih h.2

theorem allocSet_fresh (d : Dict) (l : List String) (per : ℚ)
    (hnd : l.Nodup) (hf : ∀ o ∈ l, o ∉ dkeys d) :
    allocSet d l per = d ++ l.map (fun o => (o, per)) := by
  induction l generalizing d with
  | nil => simp [allocSet]
  | cons o rest ih =>
    have hfo : o ∉ dkeys d := hf o (List.mem_cons_self o rest)
    have step : dset d o per = d ++ [(o, per)] := dset_fresh d o per hfo
    have hnd' : rest.Nodup := (List.nodup_cons.mp hnd).2
    have honotin : o ∉ rest := (List.nodup_cons.mp hnd).1
    have hf' : ∀ x ∈ rest, x ∉ dkeys (d ++ [(o, per)]) := by
      intro x hx
      rw [dkeys_append]
      simp only [List.mem_append]
      rintro (hxd | hxo)
      · exact hf x (List.mem_cons_of_mem _ hx) hxd
      · simp [dkeys] at hxo
        exact honotin (hxo ▸ hx)
    calc allocSet d (o :: rest) per
        = allocSet (dset d o per) rest per := rfl
      _ = allocSet (d ++ [(o, per)]) rest per := by rw [step]
      _ = (d ++ [(o, per)]) ++ rest.map (fun x => (x, per)) := ih _ hnd' hf'
      _ = d ++ (o :: rest).map (fun x => (x, per)) := by simp

theorem allocAdd_fresh (d : Dict) (l : List String) (per : ℚ)
    (hnd : l.Nodup) (hf : ∀ o ∈ l, o ∉ dkeys d) :
    allocAdd d l per = d ++ l.map (fun o => (o, per)) := by
  induction l generalizing d with
  | nil => simp [allocAdd]
  | cons o rest ih =>
    have hfo : o ∉ dkeys d := hf o (List.mem_cons_self o rest)
    have hget : dget d o 0 = 0 := dget_fresh d o 0 hfo
    have step : dset d o (dget d o 0 + per) = d ++ [(o, per)] := by
      rw [hget, zero_add]; exact dset_fresh d o per hfo
    have hnd' : rest.Nodup := (List.nodup_cons.mp hnd).2
    have honotin : o ∉ rest := (List.nodup_cons.mp hnd).1
    have hf' : ∀ x ∈ rest, x ∉ dkeys (d ++ [(o, per)]) := by
      intro x hx
      rw [dkeys_append]
      simp only [List.mem_append]
      rintro (hxd | hxo)
      · exact hf x (List.mem_cons_of_mem _ hx) hxd
      · simp [dkeys] at hxo
        exact honotin (hxo ▸ hx)
    calc allocAdd d (o :: rest) per
        = allocAdd (dset d o (dget d o 0 + per)) rest per := rfl
      _ = allocAdd (d ++ [(o, per)]) rest per := by rw [step]
      _ = (d ++ [(o, per)]) ++ rest.map (fun x => (x, per)) := ih _ hnd' hf'
      _ = d ++ (o :: rest).map (fun x => (x, per)) := by simp

theorem dsum_map_const (l : List String) (c : ℚ) :
    dsum (l.map (fun o => (o, c))) = l.length * c := by
  induction l with
  | nil => simp
  | cons o rest ih => simp [ih]; ring

theorem roundDict_length (d : Dict) : (roundDict d).length = d.length := by
  simp [roundDict]

theorem roundDict_close (d : Dict) :
    |dsum (roundDict d) - dsum d| ≤ d.length * (1/200) := by
  induction d with
  | nil => simp [roundDict]
  | cons p rest ih =>
    have h := round2_close p.2
    have e : dsum (roundDict (p :: rest)) - dsum (p :: rest)
        = (round2 p.2 - p.2) + (dsum (roundDict rest) - dsum rest) := by
      simp [roundDict, dsum]; ring
    calc |dsum (roundDict (p :: rest)) - dsum (p :: rest)|
        ≤ |round2 p.2 - p.2| + |dsum (roundDict rest) - dsum rest| := by
          rw [e]; exact abs_add _ _
      _ ≤ 1/200 + rest.length * (1/200) := add_le_add h ih
      _ = (p :: rest).length * (1/200) := by simp [List.length_cons]; push_cast; ring

theorem dsum_scale (d : Dict) (c : ℚ) :
    dsum (d.map (fun p => (p.1, p.2 * c))) = dsum d * c := by
  induction d with
  | nil => simp
  | cons p rest ih => simp [ih]; ring

theorem dsum_shift (d : Dict) (c : ℚ) :
    dsum (d.map (fun p => (p.1, p.2 + c))) = dsum d + d.length * c := by
  induction d with
  | nil => simp
  | cons p rest ih => simp [ih]; push_cast; ring

/-! ## Claim C5 — `calculate_water_amount` -/

/-- C5 (counterexample): `calculate_water_amount(100, 33)` returns 203.03
(= `round2 (100 * 67 / 33)`), not approximately 202.02 as claimed — the
two values differ by more than a full unit. -/
theorem C5_counterexample :
    calculate_water_amount 100 33 = .ok 203.03
    ∧ (203.03 : ℚ) ≠ 202.02
    ∧ 1 ≤ |(203.03 : ℚ) - 202.02| := by
  refine ⟨?_, by norm_num, by rw [abs_of_pos] <;> norm_num⟩
  unfold calculate_water_amount
  rw [if_neg (by norm_num : (33 : ℚ) ≠ 0)]
  have h : round2 ((100 : ℚ) * (100 - 33) / 33) = 20303 / 100 :=
    round2_eq _ 20303 (by norm_num) (by norm_num)
  rw [h]
  norm_num

/-- C5 (amended): `calculate_water_amount` computes
`reagent * (100 - concentration) / concentration` rounded to 2 decimals,
raises (`ZeroDivisionError`) when the concentration is 0, and in
particular returns 203.03 — not 202.02 — at `(reagent=100, conc=33)`. -/
theorem C5_amended (lye_weight conc : ℚ) (h : conc ≠ 0) :
    calculate_water_amount lye_weight conc
      = .ok (round2 (lye_weight * (100 - conc) / conc))
    ∧ (∃ e, calculate_water_amount lye_weight 0 = .error e)
    ∧ calculate_water_amount 100 33 = .ok 203.03 := by
  refine ⟨?_, ⟨"ZeroDivisionError: division by zero", ?_⟩, ?_⟩
  · unfold calculate_water_amount
    rw [if_neg h]
  · unfold calculate_water_amount
    rw [if_pos rfl]
  · unfold calculate_water_amount
    rw [if_neg (by norm_num : (33 : ℚ) ≠ 0)]
    have h2 : round2 ((100 : ℚ) * (100 - 33) / 33) = 20303 / 100 :=
      round2_eq _ 20303 (by norm_num) (by norm_num)
    rw [h2]
    norm_num

theorem C5_witness :
    ((33 : ℚ) ≠ 0)
    ∧ (calculate_water_amount 100 33 = .ok (round2 (100 * (100 - 33) / 33))
       ∧ (∃ e, calculate_water_amount 100 0 = .error e)
       ∧ calculate_water_amount 100 33 = .ok 203.03) :=
  ⟨by norm_num, C5_amended 100 33 (by norm_num)⟩

/-! ## Claim C7 — no `EmptySelection` error -/

/-- C7 (counterexample): at the empty ingredient mapping no error of any
kind is raised: the property and fatty-acid calculators return the empty
dict (`none`, a normal value), and the lye calculator happily returns
`(0.0, 0.0)` wrapped in `.ok`. -/
theorem C7_counterexample :
    calculate_soap_properties exampleOilsDB [] = none
    ∧ calculate_fatty_acid_profile exampleOilsDB [] = none
    ∧ calculate_lye_amount exampleOilsDB exampleModifiersDB [] 5 none "NaOH" = .ok (0, 0) := by
  refine ⟨?_, ?_, ?_⟩
  · simp [calculate_soap_properties]
  · simp [calculate_fatty_acid_profile]
  · unfold calculate_lye_amount sumSap
    simp [Except.map, round2_zero]

/-- C7 (amended): there is no `EmptySelection` error anywhere in the
calculator.  A mapping whose weights sum to zero makes the property and
fatty-acid calculations return the empty dict (not raise), and the lye
calculation performs no emptiness check at all: on the empty mapping it
returns `(0.0, 0.0)`. -/
theorem C7_amended (db : OilsDB) (mdb : ModifiersDB) (m : Dict)
    (sf : ℚ) (lt : String) (hz : dsum m = 0) :
    calculate_soap_properties db m = none
    ∧ calculate_fatty_acid_profile db m = none
    ∧ calculate_lye_amount db mdb [] sf none lt = .ok (0, 0) := by
  refine ⟨?_, ?_, ?_⟩
  · unfold calculate_soap_properties
    rw [if_pos hz]
  · unfold calculate_fatty_acid_profile
    rw [if_pos hz]
  · unfold calculate_lye_amount sumSap
    simp [Except.map, round2_zero]

theorem C7_witness :
    dsum [("Olive Oil", (5 : ℚ)), ("Coconut Oil", -5)] = 0
    ∧ (calculate_soap_properties exampleOilsDB [("Olive Oil", 5), ("Coconut Oil", -5)] = none
       ∧ calculate_fatty_acid_profile exampleOilsDB [("Olive Oil", 5), ("Coconut Oil", -5)] = none
       ∧ calculate_lye_amount exampleOilsDB exampleModifiersDB [] 3 none "KOH" = .ok (0, 0)) :=
  ⟨by norm_num [dsum], C7_amended exampleOilsDB exampleModifiersDB _ 3 "KOH" (by norm_num [dsum])⟩

/-! ## Claim C8 — `Recipe` round trip -/

/-- C8: restoring a serialized recipe (`from_dict` after `to_dict`)
reproduces every derived field — lye amount, lye adjustment, water
amount, fragrance amount, property vector and fatty-acid vector —
unchanged, with no recomputation on load. -/
theorem C8_round_trip (r : Recipe) (now : String) :
    (Recipe.from_dict now r.to_dict).lye_amount = r.lye_amount
    ∧ (Recipe.from_dict now r.to_dict).lye_adjustment = r.lye_adjustment
    ∧ (Recipe.from_dict now r.to_dict).water_amount = r.water_amount
    ∧ (Recipe.from_dict now r.to_dict).fragrance_amount = r.fragrance_amount
    ∧ (Recipe.from_dict now r.to_dict).properties = r.properties
    ∧ (Recipe.from_dict now r.to_dict).fatty_acids = r.fatty_acids :=
  ⟨rfl, rfl, rfl, rfl, rfl, rfl⟩

/-! ## Helper lemmas for the calculator claims -/

theorem sumSap_raises (db : OilsDB) (lt : String) (m : Dict)
    (h : ∃ p ∈ m, db p.1 = none) : ∃ e, sumSap db lt m = .error e := by
  induction m with
  | nil =>
    rcases h with ⟨p, hp, _⟩
    exact absurd hp (List.not_mem_nil p)
  | cons q rest ih =>
    obtain ⟨n, w⟩ := q
    rcases h with ⟨p, hp, hdb⟩
    rcases List.mem_cons.mp hp with rfl | hmem
    · exact ⟨"Oil '" ++ n ++ "' not found in database", by simp [sumSap, hdb]⟩
    · cases hq : db n with
      | none => exact ⟨"Oil '" ++ n ++ "' not found in database", by simp [sumSap, hq]⟩
      | some oil =>
        obtain ⟨e, he⟩ := ih ⟨p, hmem, hdb⟩
        exact ⟨e, by simp [sumSap, hq, he, Except.map]⟩

theorem addScaledProps_zero (acc : OilProps) (c : ℚ) :
    addScaledProps acc zeroProps c = acc := by
  simp [addScaledProps, zeroProps]

theorem addScaledFA_zero (acc : FattyAcidVec) (c : ℚ) :
    addScaledFA acc zeroFA c = acc := by
  simp [addScaledFA, zeroFA]

theorem accumProps_extend (db : OilsDB) (name : String) (hmiss : db name = none)
    (total : ℚ) (m : Dict) (acc : OilProps) :
    accumProps db total m acc = accumProps (extendDB db name) total m acc := by
  induction m generalizing acc with
  | nil => rfl
  | cons q rest ih =>
    obtain ⟨n, w⟩ := q
    by_cases hn : n = name
    · subst hn
      have h2 : extendDB db n n = some ⟨0, 0, zeroProps, zeroFA⟩ := by simp [extendDB]
      simp only [accumProps, hmiss, h2, addScaledProps_zero]
      exact ih acc
    · have h2 : extendDB db name n = db n := by simp [extendDB, hn]
      simp only [accumProps, h2]
      exact ih _

theorem accumFA_extend (db : OilsDB) (name : String) (hmiss : db name = none)
    (total : ℚ) (m : Dict) (acc : FattyAcidVec) :
    accumFA db total m acc = accumFA (extendDB db name) total m acc := by
  induction m generalizing acc with
  | nil => rfl
  | cons q rest ih =>
    obtain ⟨n, w⟩ := q
    by_cases hn : n = name
    · subst hn
      have h2 : extendDB db n n = some ⟨0, 0, zeroProps, zeroFA⟩ := by simp [extendDB]
      simp only [accumFA, hmiss, h2, addScaledFA_zero]
      exact ih acc
    · have h2 : extendDB db name n = db n := by simp [extendDB, hn]
      simp only [accumFA, h2]
      exact ih _

/-! ## Claim C4 — missing name: fatal for lye, skipped for properties -/

/-- C4: a name absent from the oil database makes `calculate_lye_amount`
raise, while `calculate_soap_properties` and
`calculate_fatty_acid_profile` return normally, treating the missing
entry exactly as an oil with all-zero contributions (the database
extension with a zero oil leaves both results unchanged). -/
theorem C4_asymmetric_missing_name (db : OilsDB) (mdb : ModifiersDB) (m : Dict)
    (name : String) (sf : ℚ) (mods : Option Dict) (lt : String)
    (hmem : name ∈ dkeys m) (hmiss : db name = none) :
    (∃ e, calculate_lye_amount db mdb m sf mods lt = .error e)
    ∧ calculate_soap_properties db m = calculate_soap_properties (extendDB db name) m
    ∧ calculate_fatty_acid_profile db m = calculate_fatty_acid_profile (extendDB db name) m := by
  refine ⟨?_, ?_, ?_⟩
  · obtain ⟨p, hp, hpn⟩ := List.mem_map.mp hmem
    obtain ⟨e, he⟩ := sumSap_raises db lt m ⟨p, hp, by rw [hpn]; exact hmiss⟩
    exact ⟨e, by unfold calculate_lye_amount; rw [he]; rfl⟩
  · unfold calculate_soap_properties
    rw [accumProps_extend db name hmiss]
  · unfold calculate_fatty_acid_profile
    rw [accumFA_extend db name hmiss]

theorem C4_witness :
    ("Lanolin" ∈ dkeys [("Olive Oil", (100 : ℚ)), ("Lanolin", 50)])
    ∧ exampleOilsDB "Lanolin" = none
    ∧ ((∃ e, calculate_lye_amount exampleOilsDB exampleModifiersDB
          [("Olive Oil", 100), ("Lanolin", 50)] 5 none "NaOH" = .error e)
       ∧ calculate_soap_properties exampleOilsDB [("Olive Oil", 100), ("Lanolin", 50)]
          = calculate_soap_properties (extendDB exampleOilsDB "Lanolin")
              [("Olive Oil", 100), ("Lanolin", 50)]
       ∧ calculate_fatty_acid_profile exampleOilsDB [("Olive Oil", 100), ("Lanolin", 50)]
          = calculate_fatty_acid_profile (extendDB exampleOilsDB "Lanolin")
              [("Olive Oil", 100), ("Lanolin", 50)]) :=
  ⟨by decide, by decide,
   C4_asymmetric_missing_name exampleOilsDB exampleModifiersDB _ "Lanolin" 5 none "NaOH"
     (by decide) (by decide)⟩

/-! ## Claim C6 — linearity of the lye amount -/

theorem sumSap_double (db : OilsDB) (lt : String) (m : Dict) (s : ℚ)
    (h : sumSap db lt m = .ok s) :
    sumSap db lt (m.map (fun p => (p.1, 2 * p.2))) = .ok (2 * s) := by
  induction m generalizing s with
  | nil =>
    simp only [sumSap, Except.ok.injEq] at h
    simp only [List.map_nil, sumSap, Except.ok.injEq]
    rw [← h]
    ring
  | cons q rest ih =>
    obtain ⟨n, w⟩ := q
    cases hq : db n with
    | none => simp [sumSap, hq] at h
    | some oil =>
      cases hr : sumSap db lt rest with
      | error e =>
        rw [sumSap, hq] at h
        simp [hr, Except.map] at h
      | ok s2 =>
        rw [sumSap, hq] at h
        simp only [hr, Except.map, Except.ok.injEq] at h
        have h2 := ih s2 hr
        simp only [List.map_cons, sumSap, hq, h2, Except.map, Except.ok.injEq]
        rw [← h]
        ring

/-- C6 (counterexample): with a database holding olive oil at its real
saponification value 0.134, doubling the single weight 102 does not
double the rounded lye amount: 102 g gives 12.98 but 204 g gives 25.97,
not 25.96. -/
theorem C6_counterexample :
    calculate_lye_amount exampleOilsDB exampleModifiersDB
      [("Olive Oil", 102)] 5 none "NaOH" = .ok (12.98, 0)
    ∧ calculate_lye_amount exampleOilsDB exampleModifiersDB
      [("Olive Oil", 204)] 5 none "NaOH" = .ok (25.97, 0)
    ∧ (25.97 : ℚ) ≠ 2 * 12.98 := by
  have hs1 : sumSap exampleOilsDB "NaOH" [("Olive Oil", 102)] = .ok (3417/250) := by
    norm_num [sumSap, exampleOilsDB, oliveOil, sapValue, Except.map]
  have hs2 : sumSap exampleOilsDB "NaOH" [("Olive Oil", 204)] = .ok (3417/125) := by
    norm_num [sumSap, exampleOilsDB, oliveOil, sapValue, Except.map]
  have hr1 : round2 ((3417/250 : ℚ) * (1 - 5/100)) = 1298/100 :=
    round2_eq _ 1298 (by norm_num) (by norm_num)
  have hr2 : round2 ((3417/125 : ℚ) * (1 - 5/100)) = (2596 + 1)/100 :=
    round2_eq_up _ 2596 (by norm_num) (by norm_num)
  refine ⟨?_, ?_, by norm_num⟩
  · unfold calculate_lye_amount
    rw [hs1]
    simp only [Except.map, hr1, round2_zero]
    norm_num
  · unfold calculate_lye_amount
    rw [hs2]
    simp only [Except.map, hr2, round2_zero]
    norm_num

/-- C6 (amended): the pre-rounding lye amount is exactly linear — doubling
every weight doubles the raw saponification sum, and each returned value
is the rounding of the corresponding raw amount — so the two rounded
return values agree up to the rounding slack of 0.015 (which the
counterexample shows is actually reached beyond 0.01). -/
theorem C6_amended (db : OilsDB) (mdb : ModifiersDB) (m : Dict) (sf : ℚ)
    (lt : String) (s a b adj adj2 : ℚ)
    (hs : sumSap db lt m = .ok s)
    (ha : calculate_lye_amount db mdb m sf none lt = .ok (a, adj))
    (hb : calculate_lye_amount db mdb (m.map (fun p => (p.1, 2 * p.2))) sf none lt
            = .ok (b, adj2)) :
    sumSap db lt (m.map (fun p => (p.1, 2 * p.2))) = .ok (2 * s)
    ∧ a = round2 (s * (1 - sf / 100))
    ∧ b = round2 (2 * s * (1 - sf / 100))
    ∧ |b - 2 * a| ≤ 3 / 200 := by
  have hs2 := sumSap_double db lt m s hs
  unfold calculate_lye_amount at ha hb
  rw [hs] at ha
  rw [hs2] at hb
  simp only [Except.map, Except.ok.injEq, Prod.mk.injEq] at ha hb
  have haa : a = round2 (s * (1 - sf / 100)) := ha.1.symm
  have hbb : b = round2 (2 * s * (1 - sf / 100)) := hb.1.symm
  refine ⟨hs2, haa, hbb, ?_⟩
  have h1 := round2_close (s * (1 - sf / 100))
  have h2 := round2_close (2 * s * (1 - sf / 100))
  rw [abs_le] at h1 h2 ⊢
  rw [haa, hbb]
  constructor <;> [nlinarith [h1.1, h1.2, h2.1, h2.2]; nlinarith [h1.1, h1.2, h2.1, h2.2]]

theorem C6_witness :
    sumSap exampleOilsDB "NaOH" [("Olive Oil", 100)] = .ok (67/5)
    ∧ calculate_lye_amount exampleOilsDB exampleModifiersDB
        [("Olive Oil", 100)] 5 none "NaOH" = .ok (1273/100, 0)
    ∧ calculate_lye_amount exampleOilsDB exampleModifiersDB
        [("Olive Oil", 200)] 5 none "NaOH" = .ok (2546/100, 0)
    ∧ (sumSap exampleOilsDB "NaOH" ([("Olive Oil", (100:ℚ))].map (fun p => (p.1, 2 * p.2)))
        = .ok (2 * (67/5))
       ∧ (1273/100 : ℚ) = round2 ((67/5) * (1 - 5 / 100))
       ∧ (2546/100 : ℚ) = round2 (2 * (67/5) * (1 - 5 / 100))
       ∧ |(2546/100 : ℚ) - 2 * (1273/100)| ≤ 3 / 200) := by
  have hs1 : sumSap exampleOilsDB "NaOH" [("Olive Oil", 100)] = .ok (67/5) := by
    simp [sumSap, exampleOilsDB, oliveOil, sapValue, Except.map]
    norm_num
  have hs2 : sumSap exampleOilsDB "NaOH" [("Olive Oil", 200)] = .ok (134/5) := by
    simp [sumSap, exampleOilsDB, oliveOil, sapValue, Except.map]
    norm_num
  have hr1 : round2 ((67/5 : ℚ) * (1 - 5/100)) = 1273/100 :=
    round2_eq _ 1273 (by norm_num) (by norm_num)
  have hr2 : round2 ((134/5 : ℚ) * (1 - 5/100)) = 2546/100 :=
    round2_eq _ 2546 (by norm_num) (by norm_num)
  have ha : calculate_lye_amount exampleOilsDB exampleModifiersDB
      [("Olive Oil", 100)] 5 none "NaOH" = .ok (1273/100, 0) := by
    unfold calculate_lye_amount
    rw [hs1]
    simp only [Except.map, hr1, round2_zero]
  have hb : calculate_lye_amount exampleOilsDB exampleModifiersDB
      [("Olive Oil", 200)] 5 none "NaOH" = .ok (2546/100, 0) := by
    unfold calculate_lye_amount
    rw [hs2]
    simp only [Except.map, hr2, round2_zero]
  have hmap : ([("Olive Oil", (100:ℚ))].map (fun p => (p.1, 2 * p.2))) = [("Olive Oil", (200:ℚ))] := by
    norm_num
  refine ⟨hs1, ha, ?_, ?_⟩
  · rw [← hmap] at hb ⊢
    exact hb
  · have := C6_amended exampleOilsDB exampleModifiersDB [("Olive Oil", 100)] 5 "NaOH"
      (67/5) (1273/100) (2546/100) 0 0 hs1 ha (by rw [hmap]; exact hb)
    exact this

/-! ## Claim C9 — missing names stay in the denominator -/

theorem accumProps_as_numer (db : OilsDB) (tot : ℚ) (m : Dict) (acc : OilProps) :
    accumProps db tot m acc = addScaledProps acc (numerProps db m) (1 / tot) := by
  induction m generalizing acc with
  | nil =>
    simp [accumProps, numerProps, addScaledProps_zero]
  | cons q rest ih =>
    obtain ⟨n, w⟩ := q
    cases hq : db n with
    | none =>
      simp only [accumProps, numerProps, hq]
      exact ih acc
    | some oil =>
      simp only [accumProps, numerProps, hq]
      rw [ih]
      ext <;> simp only [addScaledProps] <;> ring

theorem accumFA_as_numer (db : OilsDB) (tot : ℚ) (m : Dict) (acc : FattyAcidVec) :
    accumFA db tot m acc = addScaledFA acc (numerFA db m) (1 / tot) := by
  induction m generalizing acc with
  | nil =>
    simp [accumFA, numerFA, addScaledFA_zero]
  | cons q rest ih =>
    obtain ⟨n, w⟩ := q
    cases hq : db n with
    | none =>
      simp only [accumFA, numerFA, hq]
      exact ih acc
    | some oil =>
      simp only [accumFA, numerFA, hq]
      rw [ih]
      ext <;> simp only [addScaledFA] <;> ring

/-- C9: whenever the total weight is nonzero, every property score
returned by `calculate_soap_properties` is the KNOWN ingredients' summed
weighted contributions divided by the sum of ALL the weights — the
weight of a name missing from the database (here present with positive
weight) stays in the denominator and dilutes every score; likewise for
the fatty-acid profile. -/
theorem C9_full_denominator (db : OilsDB) (m : Dict)
    (hnz : dsum m ≠ 0) (hmiss : ∃ p ∈ m, db p.1 = none ∧ 0 < p.2) :
    calculate_soap_properties db m = some (round1Props
      ⟨(numerProps db m).hardness / dsum m, (numerProps db m).cleansing / dsum m,
       (numerProps db m).conditioning / dsum m, (numerProps db m).bubbly / dsum m,
       (numerProps db m).creamy / dsum m, (numerProps db m).iodine / dsum m,
       (numerProps db m).ins / dsum m⟩)
    ∧ calculate_fatty_acid_profile db m = some (round1FA
      ⟨(numerFA db m).lauric / dsum m, (numerFA db m).myristic / dsum m,
       (numerFA db m).palmitic / dsum m, (numerFA db m).stearic / dsum m,
       (numerFA db m).ricinoleic / dsum m, (numerFA db m).oleic / dsum m,
       (numerFA db m).linoleic / dsum m, (numerFA db m).linolenic / dsum m⟩) := by
  constructor
  · unfold calculate_soap_properties
    rw [if_neg hnz, accumProps_as_numer]
    congr 1
    congr 1
    ext <;> simp only [addScaledProps, zeroProps] <;> ring
  · unfold calculate_fatty_acid_profile
    rw [if_neg hnz, accumFA_as_numer]
    congr 1
    congr 1
    ext <;> simp only [addScaledFA, zeroFA] <;> ring

theorem C9_witness :
    (dsum [("Olive Oil", (60 : ℚ)), ("Lanolin", 40)] ≠ 0)
    ∧ (∃ p ∈ [("Olive Oil", (60 : ℚ)), ("Lanolin", 40)],
         exampleOilsDB p.1 = none ∧ 0 < p.2)
    ∧ (calculate_soap_properties exampleOilsDB [("Olive Oil", 60), ("Lanolin", 40)]
        = some (round1Props
          ⟨(numerProps exampleOilsDB [("Olive Oil", 60), ("Lanolin", 40)]).hardness
              / dsum [("Olive Oil", 60), ("Lanolin", 40)],
           (numerProps exampleOilsDB [("Olive Oil", 60), ("Lanolin", 40)]).cleansing
              / dsum [("Olive Oil", 60), ("Lanolin", 40)],
           (numerProps exampleOilsDB [("Olive Oil", 60), ("Lanolin", 40)]).conditioning
              / dsum [("Olive Oil", 60), ("Lanolin", 40)],
           (numerProps exampleOilsDB [("Olive Oil", 60), ("Lanolin", 40)]).bubbly
              / dsum [("Olive Oil", 60), ("Lanolin", 40)],
           (numerProps exampleOilsDB [("Olive Oil", 60), ("Lanolin", 40)]).creamy
              / dsum [("Olive Oil", 60), ("Lanolin", 40)],
           (numerProps exampleOilsDB [("Olive Oil", 60), ("Lanolin", 40)]).iodine
              / dsum [("Olive Oil", 60), ("Lanolin", 40)],
           (numerProps exampleOilsDB [("Olive Oil", 60), ("Lanolin", 40)]).ins
              / dsum [("Olive Oil", 60), ("Lanolin", 40)]⟩)
       ∧ calculate_fatty_acid_profile exampleOilsDB [("Olive Oil", 60), ("Lanolin", 40)]
        = some (round1FA
          ⟨(numerFA exampleOilsDB [("Olive Oil", 60), ("Lanolin", 40)]).lauric
              / dsum [("Olive Oil", 60), ("Lanolin", 40)],
           (numerFA exampleOilsDB [("Olive Oil", 60), ("Lanolin", 40)]).myristic
              / dsum [("Olive Oil", 60), ("Lanolin", 40)],
           (numerFA exampleOilsDB [("Olive Oil", 60), ("Lanolin", 40)]).palmitic
              / dsum [("Olive Oil", 60), ("Lanolin", 40)],
           (numerFA exampleOilsDB [("Olive Oil", 60), ("Lanolin", 40)]).stearic
              / dsum [("Olive Oil", 60), ("Lanolin", 40)],
           (numerFA exampleOilsDB [("Olive Oil", 60), ("Lanolin", 40)]).ricinoleic
              / dsum [("Olive Oil", 60), ("Lanolin", 40)],
           (numerFA exampleOilsDB [("Olive Oil", 60), ("Lanolin", 40)]).oleic
              / dsum [("Olive Oil", 60), ("Lanolin", 40)],
           (numerFA exampleOilsDB [("Olive Oil", 60), ("Lanolin", 40)]).linoleic
              / dsum [("Olive Oil", 60), ("Lanolin", 40)],
           (numerFA exampleOilsDB [("Olive Oil", 60), ("Lanolin", 40)]).linolenic
              / dsum [("Olive Oil", 60), ("Lanolin", 40)]⟩)) :=
  ⟨by norm_num [dsum],
   ⟨("Lanolin", 40), by norm_num, by decide, by norm_num⟩,
   C9_full_denominator exampleOilsDB [("Olive Oil", 60), ("Lanolin", 40)]
     (by norm_num [dsum]) ⟨("Lanolin", 40), by norm_num, by decide, by norm_num⟩⟩

/-! ## Claim C10 — unknown modifier names are harmless -/

/-- C10: a modifier name absent from the modifiers database contributes
exactly 0 to the lye adjustment (removing it leaves
`calculate_lye_amount` unchanged), and `calculate_modifier_amount`
returns 0.0 for it — whereas an unknown OIL name under the same call is
fatal to the lye calculation. -/
theorem C10_unknown_modifier (db : OilsDB) (mdb : ModifiersDB) (m mods : Dict)
    (name : String) (amt t sf : ℚ) (up : Option ℚ) (lt : String)
    (hunk : mdb name = none) (hfresh : name ∉ dkeys mods) :
    calculate_lye_amount db mdb m sf (some ((name, amt) :: mods)) lt
      = calculate_lye_amount db mdb m sf (some mods) lt
    ∧ calculate_modifier_amount mdb name t up = 0
    ∧ (name ∈ dkeys m → db name = none →
        ∃ e, calculate_lye_amount db mdb m sf (some mods) lt = .error e) := by
  refine ⟨?_, ?_, ?_⟩
  · have hadj : lyeAdjustment mdb ((name, amt) :: mods) = lyeAdjustment mdb mods := by
      simp [lyeAdjustment, hunk]
    unfold calculate_lye_amount
    simp only [hadj]
  · unfold calculate_modifier_amount
    rw [hunk]
  · intro hmem hdb
    obtain ⟨p, hp, hpn⟩ := List.mem_map.mp hmem
    obtain ⟨e, he⟩ := sumSap_raises db lt m ⟨p, hp, by rw [hpn]; exact hdb⟩
    exact ⟨e, by unfold calculate_lye_amount; rw [he]; rfl⟩

theorem C10_witness :
    exampleModifiersDB "Fairy Dust" = none
    ∧ "Fairy Dust" ∉ dkeys [("Citric Acid", (10 : ℚ))]
    ∧ (calculate_lye_amount exampleOilsDB exampleModifiersDB [("Olive Oil", 100)] 5
         (some (("Fairy Dust", 7) :: [("Citric Acid", 10)])) "NaOH"
       = calculate_lye_amount exampleOilsDB exampleModifiersDB [("Olive Oil", 100)] 5
         (some [("Citric Acid", 10)]) "NaOH"
       ∧ calculate_modifier_amount exampleModifiersDB "Fairy Dust" 500 none = 0
       ∧ ("Fairy Dust" ∈ dkeys [("Olive Oil", (100 : ℚ))] →
           exampleOilsDB "Fairy Dust" = none →
           ∃ e, calculate_lye_amount exampleOilsDB exampleModifiersDB [("Olive Oil", 100)] 5
             (some [("Citric Acid", 10)]) "NaOH" = .error e)) :=
  ⟨by decide, by decide,
   C10_unknown_modifier exampleOilsDB exampleModifiersDB [("Olive Oil", 100)]
     [("Citric Acid", 10)] "Fairy Dust" 7 500 5 none "NaOH" (by decide) (by decide)⟩

/-! ## Category facts -/

theorem disjHB : ∀ o ∈ hardOils, o ∉ baseOils := by decide
theorem disjCB : ∀ o ∈ conditioningOils, o ∉ baseOils := by decide
theorem disjCH : ∀ o ∈ conditioningOils, o ∉ hardOils := by decide
theorem disjSB : ∀ o ∈ superFatOils, o ∉ baseOils := by decide
theorem disjSH : ∀ o ∈ superFatOils, o ∉ hardOils := by decide
theorem disjSC : ∀ o ∈ superFatOils, o ∉ conditioningOils := by decide
theorem disjPB : ∀ o ∈ specialtyOils, o ∉ baseOils := by decide
theorem disjPH : ∀ o ∈ specialtyOils, o ∉ hardOils := by decide
theorem disjPC : ∀ o ∈ specialtyOils, o ∉ conditioningOils := by decide
theorem disjPS : ∀ o ∈ specialtyOils, o ∉ superFatOils := by decide
theorem cocoMemHard : "Coconut Oil" ∈ hardOils := by decide
theorem cocoNotBase : "Coconut Oil" ∉ baseOils := by decide

theorem mem_filterMem {sel X : List String} {o : String} :
    o ∈ sel.filter (· ∈ X) ↔ o ∈ sel ∧ o ∈ X := by
  simp [List.mem_filter]

theorem dkeys_map_const (l : List String) (f : String → ℚ) :
    dkeys (l.map (fun o => (o, f o))) = l := by
  simp [dkeys, List.map_map]
  exact List.map_id l

theorem allocSet_guard (d : Dict) (l : List String) (per : ℚ) :
    (if l ≠ [] then allocSet d l per else d) = allocSet d l per := by
  by_cases h : l = [] <;> simp [h, allocSet]

theorem allocAdd_guard (d : Dict) (l : List String) (per : ℚ) :
    (if l ≠ [] then allocAdd d l per else d) = allocAdd d l per := by
  by_cases h : l = [] <;> simp [h, allocAdd]

theorem buildAlloc_eq (sel : List String) (t : ℚ) (s : Shares) (hnd : sel.Nodup) :
    buildAlloc sel t s =
      (sel.filter (· ∈ baseOils)).map
          (fun o => (o, t * s.base / (sel.filter (· ∈ baseOils)).length))
      ++ ((if "Coconut Oil" ∈ sel.filter (· ∈ hardOils) then
            [("Coconut Oil", t * s.coconut)] else [])
      ++ (((sel.filter (· ∈ hardOils)).filter (· ≠ "Coconut Oil")).map
          (fun o => (o, t * s.hard / ((sel.filter (· ∈ hardOils)).filter (· ≠ "Coconut Oil")).length))
      ++ ((sel.filter (· ∈ conditioningOils)).map
          (fun o => (o, t * s.animal / (sel.filter (· ∈ conditioningOils)).length))
      ++ ((sel.filter (· ∈ superFatOils)).map
          (fun o => (o, t * s.castor / (sel.filter (· ∈ superFatOils)).length))
      ++ (sel.filter (· ∈ specialtyOils)).map
          (fun o => (o, t * s.specialty / (sel.filter (· ∈ specialtyOils)).length))))))
      := by
  have hndB : (sel.filter (· ∈ baseOils)).Nodup := hnd.filter _
  have hndH : (sel.filter (· ∈ hardOils)).Nodup := hnd.filter _
  have hndH2 : ((sel.filter (· ∈ hardOils)).filter (· ≠ "Coconut Oil")).Nodup := hndH.filter _
  have hndC : (sel.filter (· ∈ conditioningOils)).Nodup := hnd.filter _
  have hndS : (sel.filter (· ∈ superFatOils)).Nodup := hnd.filter _
  have hndP : (sel.filter (· ∈ specialtyOils)).Nodup := hnd.filter _
  simp only [buildAlloc, allocSet_guard, allocAdd_guard]
  rw [allocSet_fresh [] (sel.filter (· ∈ baseOils)) _ hndB (by intro o _; simp [dkeys])]
  rw [List.nil_append]
  have e2 : (if "Coconut Oil" ∈ sel.filter (· ∈ hardOils) then
        dset ((sel.filter (· ∈ baseOils)).map
          (fun o => (o, t * s.base / (sel.filter (· ∈ baseOils)).length)))
          "Coconut Oil" (t * s.coconut)
      else ((sel.filter (· ∈ baseOils)).map
          (fun o => (o, t * s.base / (sel.filter (· ∈ baseOils)).length)))) =
      ((sel.filter (· ∈ baseOils)).map
          (fun o => (o, t * s.base / (sel.filter (· ∈ baseOils)).length)))
      ++ (if "Coconut Oil" ∈ sel.filter (· ∈ hardOils) then
            [("Coconut Oil", t * s.coconut)] else []) := by
    by_cases hc : "Coconut Oil" ∈ sel.filter (· ∈ hardOils)
    · rw [if_pos hc, if_pos hc, dset_fresh]
      rw [dkeys_map_const]
      intro hmem
      exact cocoNotBase (mem_filterMem.mp hmem).2
    · rw [if_neg hc, if_neg hc, List.append_nil]
  rw [e2]
  rw [allocAdd_fresh _ ((sel.filter (· ∈ hardOils)).filter (· ≠ "Coconut Oil")) _ hndH2
    (by
      intro o ho
      have hoH : o ∈ sel.filter (· ∈ hardOils) := (List.mem_filter.mp ho).1
      have hone : o ≠ "Coconut Oil" := by simpa using (List.mem_filter.mp ho).2
      have hoHard : o ∈ hardOils := (mem_filterMem.mp hoH).2
      rw [dkeys_append, dkeys_map_const]
      simp only [List.mem_append, not_or]
      refine ⟨fun hB => disjHB o hoHard (mem_filterMem.mp hB).2, ?_⟩
      by_cases hc : "Coconut Oil" ∈ sel.filter (· ∈ hardOils)
      · rw [if_pos hc]
        simp only [dkeys, List.map_cons, List.map_nil, List.mem_singleton]
        exact hone
      · rw [if_neg hc]
        simp [dkeys])]
  rw [allocAdd_fresh _ (sel.filter (· ∈ conditioningOils)) _ hndC
    (by
      intro o ho
      have hoCond : o ∈ conditioningOils := (mem_filterMem.mp ho).2
      rw [dkeys_append, dkeys_append, dkeys_map_const, dkeys_map_const]
      simp only [List.mem_append, not_or]
      refine ⟨⟨fun hB => disjCB o hoCond (mem_filterMem.mp hB).2, ?_⟩,
        fun hH2 => disjCH o hoCond (mem_filterMem.mp (List.mem_filter.mp hH2).1).2⟩
      by_cases hc : "Coconut Oil" ∈ sel.filter (· ∈ hardOils)
      · rw [if_pos hc]
        simp only [dkeys, List.map_cons, List.map_nil, List.mem_singleton]
        intro he
        exact disjCH o hoCond (he ▸ cocoMemHard)
      · rw [if_neg hc]
        simp [dkeys])]
  rw [allocAdd_fresh _ (sel.filter (· ∈ superFatOils)) _ hndS
    (by
      intro o ho
      have hoS : o ∈ superFatOils := (mem_filterMem.mp ho).2
      rw [dkeys_append, dkeys_append, dkeys_append, dkeys_map_const, dkeys_map_const,
        dkeys_map_const]
      simp only [List.mem_append, not_or]
      refine ⟨⟨⟨fun hB => disjSB o hoS (mem_filterMem.mp hB).2, ?_⟩,
        fun hH2 => disjSH o hoS (mem_filterMem.mp (List.mem_filter.mp hH2).1).2⟩,
        fun hC => disjSC o hoS (mem_filterMem.mp hC).2⟩
      by_cases hc : "Coconut Oil" ∈ sel.filter (· ∈ hardOils)
      · rw [if_pos hc]
        simp only [dkeys, List.map_cons, List.map_nil, List.mem_singleton]
        intro he
        exact disjSH o hoS (he ▸ cocoMemHard)
      · rw [if_neg hc]
        simp [dkeys])]
  rw [allocAdd_fresh _ (sel.filter (· ∈ specialtyOils)) _ hndP
    (by
      intro o ho
      have hoP : o ∈ specialtyOils := (mem_filterMem.mp ho).2
      rw [dkeys_append, dkeys_append, dkeys_append, dkeys_append, dkeys_map_const,
        dkeys_map_const, dkeys_map_const, dkeys_map_const]
      simp only [List.mem_append, not_or]
      refine ⟨⟨⟨⟨fun hB => disjPB o hoP (mem_filterMem.mp hB).2, ?_⟩,
        fun hH2 => disjPH o hoP (mem_filterMem.mp (List.mem_filter.mp hH2).1).2⟩,
        fun hC => disjPC o hoP (mem_filterMem.mp hC).2⟩,
        fun hS => disjPS o hoP (mem_filterMem.mp hS).2⟩
      by_cases hc : "Coconut Oil" ∈ sel.filter (· ∈ hardOils)
      · rw [if_pos hc]
        simp only [dkeys, List.map_cons, List.map_nil, List.mem_singleton]
        intro he
        exact disjPH o hoP (he ▸ cocoMemHard)
      · rw [if_neg hc]
        simp [dkeys])]
  simp only [List.append_assoc]

theorem group_sum (X : List String) (x : ℚ) :
    dsum (X.map (fun o => (o, x / X.length))) = if X ≠ [] then x else 0 := by
  by_cases h : X = []
  · simp [h]
  · rw [dsum_map_const, if_pos h]
    have hlen : (X.length : ℚ) ≠ 0 := by
      simp only [ne_eq, Nat.cast_eq_zero, List.length_eq_zero]
      exact h
    field_simp

theorem dsum_buildAlloc (sel : List String) (t : ℚ) (s : Shares) (hnd : sel.Nodup) :
    dsum (buildAlloc sel t s) =
      (if sel.filter (· ∈ baseOils) ≠ [] then t * s.base else 0)
      + (if "Coconut Oil" ∈ sel.filter (· ∈ hardOils) then t * s.coconut else 0)
      + (if (sel.filter (· ∈ hardOils)).filter (· ≠ "Coconut Oil") ≠ [] then t * s.hard else 0)
      + (if sel.filter (· ∈ conditioningOils) ≠ [] then t * s.animal else 0)
      + (if sel.filter (· ∈ superFatOils) ≠ [] then t * s.castor else 0)
      + (if sel.filter (· ∈ specialtyOils) ≠ [] then t * s.specialty else 0) := by
  rw [buildAlloc_eq sel t s hnd]
  rw [dsum_append, dsum_append, dsum_append, dsum_append, dsum_append]
  rw [group_sum, group_sum, group_sum, group_sum, group_sum]
  have hcoco : dsum (if "Coconut Oil" ∈ sel.filter (· ∈ hardOils) then
      [("Coconut Oil", t * s.coconut)] else []) =
      if "Coconut Oil" ∈ sel.filter (· ∈ hardOils) then t * s.coconut else 0 := by
    by_cases hc : "Coconut Oil" ∈ sel.filter (· ∈ hardOils) <;> simp [hc]
  rw [hcoco]
  ring

theorem compensate_base (sel : List String) (s : Shares) :
    (compensate sel s).base = s.base := by
  unfold compensate; split_ifs <;> rfl

theorem compensate_castor (sel : List String) (s : Shares) :
    (compensate sel s).castor = s.castor := by
  unfold compensate; split_ifs <;> rfl

theorem compensate_specialty (sel : List String) (s : Shares) :
    (compensate sel s).specialty = s.specialty := by
  unfold compensate; split_ifs <;> rfl

theorem preNorm_base_absent (sel : List String) (tp : TargetProps)
    (h : sel.filter (· ∈ baseOils) = []) : (sharesPreNorm sel tp).base = 0 := by
  unfold sharesPreNorm
  rw [compensate_base]
  simp [sharesBase, h]

theorem preNorm_coconut_absent (sel : List String) (tp : TargetProps)
    (h : "Coconut Oil" ∉ sel.filter (· ∈ hardOils)) : (sharesPreNorm sel tp).coconut = 0 := by
  have hb : (sharesBase sel tp).coconut = 0 := by simp [sharesBase, h]
  unfold sharesPreNorm compensate
  split_ifs <;> simp [hb]

theorem preNorm_hard_absent (sel : List String) (tp : TargetProps)
    (h : (sel.filter (· ∈ hardOils)).filter (· ≠ "Coconut Oil") = []) :
    (sharesPreNorm sel tp).hard = 0 := by
  have hb : (sharesBase sel tp).hard = 0 := by
    simp only [sharesBase]
    rw [if_neg (fun hne => hne h)]
  unfold sharesPreNorm compensate
  split_ifs <;> simp [hb]

theorem preNorm_animal_absent (sel : List String) (tp : TargetProps)
    (h : sel.filter (· ∈ conditioningOils) = []) : (sharesPreNorm sel tp).animal = 0 := by
  have hb : (sharesBase sel tp).animal = 0 := by simp [sharesBase, h]
  unfold sharesPreNorm compensate
  split_ifs <;> simp [hb]

theorem preNorm_castor_absent (sel : List String) (tp : TargetProps)
    (h : sel.filter (· ∈ superFatOils) = []) : (sharesPreNorm sel tp).castor = 0 := by
  unfold sharesPreNorm
  rw [compensate_castor]
  simp [sharesBase, h]

theorem preNorm_specialty_absent (sel : List String) (tp : TargetProps)
    (h : sel.filter (· ∈ specialtyOils) = []) : (sharesPreNorm sel tp).specialty = 0 := by
  unfold sharesPreNorm
  rw [compensate_specialty]
  simp [sharesBase, h]

theorem preNorm_base_pos (sel : List String) (tp : TargetProps) (hr : InRange tp)
    (h : sel.filter (· ∈ baseOils) ≠ []) : 0 < (sharesPreNorm sel tp).base := by
  obtain ⟨_, _, _, _, hco1, _, _, _, _, _⟩ := hr
  unfold sharesPreNorm
  rw [compensate_base]
  simp only [sharesBase]
  rw [if_pos h]
  have h1 : (0:ℚ) ≤ (tp.conditioning.getD 55 - 44) / 25 := by linarith
  have h2 : (0:ℚ) ≤ (tp.conditioning.getD 55 - 44) / 25 * 0.30 := mul_nonneg h1 (by norm_num)
  linarith

theorem preNorm_coconut_pos (sel : List String) (tp : TargetProps) (hr : InRange tp)
    (h : "Coconut Oil" ∈ sel.filter (· ∈ hardOils)) : 0 < (sharesPreNorm sel tp).coconut := by
  obtain ⟨_, _, hcl1, _, _, _, _, _, _, _⟩ := hr
  have hc : 0 < (sharesBase sel tp).coconut := by
    simp only [sharesBase]
    rw [if_pos h]
    have h1 : (0:ℚ) ≤ (tp.cleansing.getD 15 - 12) / 10 := by linarith
    have h2 : (0:ℚ) ≤ max ((tp.cleansing.getD 15 - 12) / 10) ((tp.bubbly.getD 25 - 14) / 32) :=
      le_trans h1 (le_max_left _ _)
    have h3 : (0:ℚ) ≤ max ((tp.cleansing.getD 15 - 12) / 10) ((tp.bubbly.getD 25 - 14) / 32) * 0.35 :=
      mul_nonneg h2 (by norm_num)
    linarith
  unfold sharesPreNorm compensate
  split_ifs <;>
    first
      | exact hc
      | exact mul_pos hc (by norm_num)
      | exact absurd h (by assumption)

theorem preNorm_hard_pos (sel : List String) (tp : TargetProps) (hr : InRange tp)
    (h : (sel.filter (· ∈ hardOils)).filter (· ≠ "Coconut Oil") ≠ []) :
    0 < (sharesPreNorm sel tp).hard := by
  obtain ⟨hh1, _, _, _, _, _, _, _, _, _⟩ := hr
  have hc : 0 < (sharesBase sel tp).hard := by
    simp only [sharesBase]
    rw [if_pos h]
    have h1 : (0:ℚ) ≤ (tp.hardness.getD 40 - 29) / 25 := by linarith
    have h2 : (0:ℚ) ≤ (tp.hardness.getD 40 - 29) / 25 * 0.15 := mul_nonneg h1 (by norm_num)
    linarith
  unfold sharesPreNorm compensate
  split_ifs <;>
    first
      | exact hc
      | exact mul_pos hc (by norm_num)
      | exact absurd h (by assumption)

theorem preNorm_animal_pos (sel : List String) (tp : TargetProps) (hr : InRange tp)
    (h : sel.filter (· ∈ conditioningOils) ≠ []) : 0 < (sharesPreNorm sel tp).animal := by
  obtain ⟨_, _, _, _, _, _, _, _, hcr1, _⟩ := hr
  have hc : 0 < (sharesBase sel tp).animal := by
    simp only [sharesBase]
    rw [if_pos h]
    have h1 : (0:ℚ) ≤ (tp.creamy.getD 30 - 16) / 32 := by linarith
    have h2 : (0:ℚ) ≤ (tp.creamy.getD 30 - 16) / 32 * 0.20 := mul_nonneg h1 (by norm_num)
    linarith
  unfold sharesPreNorm compensate
  split_ifs <;>
    first
      | exact hc
      | exact mul_pos hc (by norm_num)
      | exact absurd h (by assumption)

theorem preNorm_castor_pos (sel : List String) (tp : TargetProps) (hr : InRange tp)
    (h : sel.filter (· ∈ superFatOils) ≠ []) : 0 < (sharesPreNorm sel tp).castor := by
  obtain ⟨_, _, _, _, _, _, _, _, hcr1, _⟩ := hr
  unfold sharesPreNorm
  rw [compensate_castor]
  simp only [sharesBase]
  rw [if_pos h]
  have h1 : (0:ℚ) ≤ (tp.creamy.getD 30 - 16) / 32 := by linarith
  have h2 : (0:ℚ) ≤ (tp.creamy.getD 30 - 16) / 32 * 0.05 := mul_nonneg h1 (by norm_num)
  linarith

theorem preNorm_specialty_pos (sel : List String) (tp : TargetProps) (hr : InRange tp)
    (h : sel.filter (· ∈ specialtyOils) ≠ []) : 0 < (sharesPreNorm sel tp).specialty := by
  obtain ⟨_, _, _, _, hco1, _, _, _, _, _⟩ := hr
  unfold sharesPreNorm
  rw [compensate_specialty]
  simp only [sharesBase]
  rw [if_pos h]
  have h1 : (0:ℚ) ≤ (tp.conditioning.getD 55 - 44) / 25 := by linarith
  have h2 : (0:ℚ) ≤ (tp.conditioning.getD 55 - 44) / 25 * 0.02 := mul_nonneg h1 (by norm_num)
  linarith

theorem preNorm_base_nonneg (sel : List String) (tp : TargetProps) (hr : InRange tp) :
    0 ≤ (sharesPreNorm sel tp).base := by
  by_cases h : sel.filter (· ∈ baseOils) = []
  · rw [preNorm_base_absent sel tp h]
  · exact le_of_lt (preNorm_base_pos sel tp hr h)

theorem preNorm_coconut_nonneg (sel : List String) (tp : TargetProps) (hr : InRange tp) :
    0 ≤ (sharesPreNorm sel tp).coconut := by
  by_cases h : "Coconut Oil" ∈ sel.filter (· ∈ hardOils)
  · exact le_of_lt (preNorm_coconut_pos sel tp hr h)
  · rw [preNorm_coconut_absent sel tp h]

theorem preNorm_hard_nonneg (sel : List String) (tp : TargetProps) (hr : InRange tp) :
    0 ≤ (sharesPreNorm sel tp).hard := by
  by_cases h : (sel.filter (· ∈ hardOils)).filter (· ≠ "Coconut Oil") = []
  · rw [preNorm_hard_absent sel tp h]
  · exact le_of_lt (preNorm_hard_pos sel tp hr h)

theorem preNorm_animal_nonneg (sel : List String) (tp : TargetProps) (hr : InRange tp) :
    0 ≤ (sharesPreNorm sel tp).animal := by
  by_cases h : sel.filter (· ∈ conditioningOils) = []
  · rw [preNorm_animal_absent sel tp h]
  · exact le_of_lt (preNorm_animal_pos sel tp hr h)

theorem preNorm_castor_nonneg (sel : List String) (tp : TargetProps) (hr : InRange tp) :
    0 ≤ (sharesPreNorm sel tp).castor := by
  by_cases h : sel.filter (· ∈ superFatOils) = []
  · rw [preNorm_castor_absent sel tp h]
  · exact le_of_lt (preNorm_castor_pos sel tp hr h)

theorem preNorm_specialty_nonneg (sel : List String) (tp : TargetProps) (hr : InRange tp) :
    0 ≤ (sharesPreNorm sel tp).specialty := by
  by_cases h : sel.filter (· ∈ specialtyOils) = []
  · rw [preNorm_specialty_absent sel tp h]
  · exact le_of_lt (preNorm_specialty_pos sel tp hr h)

theorem preNorm_total_pos (sel : List String) (tp : TargetProps) (hr : InRange tp)
    (hcat : ∃ o ∈ sel, categorized o) : 0 < sharesTotal (sharesPreNorm sel tp) := by
  have n1 := preNorm_base_nonneg sel tp hr
  have n2 := preNorm_coconut_nonneg sel tp hr
  have n3 := preNorm_hard_nonneg sel tp hr
  have n4 := preNorm_animal_nonneg sel tp hr
  have n5 := preNorm_castor_nonneg sel tp hr
  have n6 := preNorm_specialty_nonneg sel tp hr
  obtain ⟨o, ho, hcato⟩ := hcat
  unfold sharesTotal
  rcases hcato with hox | hox | hox | hox | hox
  · have := preNorm_base_pos sel tp hr
      (List.ne_nil_of_mem (mem_filterMem.mpr ⟨ho, hox⟩))
    linarith
  · by_cases hoc : o = "Coconut Oil"
    · subst hoc
      have := preNorm_coconut_pos sel tp hr (mem_filterMem.mpr ⟨ho, hox⟩)
      linarith
    · have hmem : o ∈ (sel.filter (· ∈ hardOils)).filter (· ≠ "Coconut Oil") := by
        rw [List.mem_filter]
        exact ⟨mem_filterMem.mpr ⟨ho, hox⟩, by simp [hoc]⟩
      have := preNorm_hard_pos sel tp hr (List.ne_nil_of_mem hmem)
      linarith
  · have := preNorm_castor_pos sel tp hr
      (List.ne_nil_of_mem (mem_filterMem.mpr ⟨ho, hox⟩))
    linarith
  · have := preNorm_animal_pos sel tp hr
      (List.ne_nil_of_mem (mem_filterMem.mpr ⟨ho, hox⟩))
    linarith
  · have := preNorm_specialty_pos sel tp hr
      (List.ne_nil_of_mem (mem_filterMem.mpr ⟨ho, hox⟩))
    linarith

theorem targeted_total (sel : List String) (tp : TargetProps) (t : ℚ)
    (hnd : sel.Nodup) (hr : InRange tp) (hcat : ∃ o ∈ sel, categorized o) :
    dsum (buildAlloc sel t (sharesNormalized sel tp)) = t := by
  have hT := preNorm_total_pos sel tp hr hcat
  have hTne : sharesTotal (sharesPreNorm sel tp) ≠ 0 := ne_of_gt hT
  have hnorm : sharesNormalized sel tp =
      ⟨(sharesPreNorm sel tp).base / sharesTotal (sharesPreNorm sel tp),
       (sharesPreNorm sel tp).coconut / sharesTotal (sharesPreNorm sel tp),
       (sharesPreNorm sel tp).hard / sharesTotal (sharesPreNorm sel tp),
       (sharesPreNorm sel tp).animal / sharesTotal (sharesPreNorm sel tp),
       (sharesPreNorm sel tp).castor / sharesTotal (sharesPreNorm sel tp),
       (sharesPreNorm sel tp).specialty / sharesTotal (sharesPreNorm sel tp)⟩ := by
    unfold sharesNormalized normalizeShares
    rw [if_pos hT]
  rw [dsum_buildAlloc sel t _ hnd, hnorm]
  dsimp only
  have e1 : (if sel.filter (· ∈ baseOils) ≠ [] then
      t * ((sharesPreNorm sel tp).base / sharesTotal (sharesPreNorm sel tp)) else 0)
      = t * ((sharesPreNorm sel tp).base / sharesTotal (sharesPreNorm sel tp)) := by
    by_cases h : sel.filter (· ∈ baseOils) = []
    · rw [if_neg (not_not_intro h), preNorm_base_absent sel tp h, zero_div, mul_zero]
    · rw [if_pos h]
  have e2 : (if "Coconut Oil" ∈ sel.filter (· ∈ hardOils) then
      t * ((sharesPreNorm sel tp).coconut / sharesTotal (sharesPreNorm sel tp)) else 0)
      = t * ((sharesPreNorm sel tp).coconut / sharesTotal (sharesPreNorm sel tp)) := by
    by_cases h : "Coconut Oil" ∈ sel.filter (· ∈ hardOils)
    · rw [if_pos h]
    · rw [if_neg h, preNorm_coconut_absent sel tp h, zero_div, mul_zero]
  have e3 : (if (sel.filter (· ∈ hardOils)).filter (· ≠ "Coconut Oil") ≠ [] then
      t * ((sharesPreNorm sel tp).hard / sharesTotal (sharesPreNorm sel tp)) else 0)
      = t * ((sharesPreNorm sel tp).hard / sharesTotal (sharesPreNorm sel tp)) := by
    by_cases h : (sel.filter (· ∈ hardOils)).filter (· ≠ "Coconut Oil") = []
    · rw [if_neg (not_not_intro h), preNorm_hard_absent sel tp h, zero_div, mul_zero]
    · rw [if_pos h]
  have e4 : (if sel.filter (· ∈ conditioningOils) ≠ [] then
      t * ((sharesPreNorm sel tp).animal / sharesTotal (sharesPreNorm sel tp)) else 0)
      = t * ((sharesPreNorm sel tp).animal / sharesTotal (sharesPreNorm sel tp)) := by
    by_cases h : sel.filter (· ∈ conditioningOils) = []
    · rw [if_neg (not_not_intro h), preNorm_animal_absent sel tp h, zero_div, mul_zero]
    · rw [if_pos h]
  have e5 : (if sel.filter (· ∈ superFatOils) ≠ [] then
      t * ((sharesPreNorm sel tp).castor / sharesTotal (sharesPreNorm sel tp)) else 0)
      = t * ((sharesPreNorm sel tp).castor / sharesTotal (sharesPreNorm sel tp)) := by
    by_cases h : sel.filter (· ∈ superFatOils) = []
    · rw [if_neg (not_not_intro h), preNorm_castor_absent sel tp h, zero_div, mul_zero]
    · rw [if_pos h]
  have e6 : (if sel.filter (· ∈ specialtyOils) ≠ [] then
      t * ((sharesPreNorm sel tp).specialty / sharesTotal (sharesPreNorm sel tp)) else 0)
      = t * ((sharesPreNorm sel tp).specialty / sharesTotal (sharesPreNorm sel tp)) := by
    by_cases h : sel.filter (· ∈ specialtyOils) = []
    · rw [if_neg (not_not_intro h), preNorm_specialty_absent sel tp h, zero_div, mul_zero]
    · rw [if_pos h]
  rw [e1, e2, e3, e4, e5, e6]
  have expand : sharesTotal (sharesPreNorm sel tp) =
      (sharesPreNorm sel tp).base + (sharesPreNorm sel tp).coconut
      + (sharesPreNorm sel tp).hard + (sharesPreNorm sel tp).animal
      + (sharesPreNorm sel tp).castor + (sharesPreNorm sel tp).specialty := rfl
  calc t * ((sharesPreNorm sel tp).base / sharesTotal (sharesPreNorm sel tp))
      + t * ((sharesPreNorm sel tp).coconut / sharesTotal (sharesPreNorm sel tp))
      + t * ((sharesPreNorm sel tp).hard / sharesTotal (sharesPreNorm sel tp))
      + t * ((sharesPreNorm sel tp).animal / sharesTotal (sharesPreNorm sel tp))
      + t * ((sharesPreNorm sel tp).castor / sharesTotal (sharesPreNorm sel tp))
      + t * ((sharesPreNorm sel tp).specialty / sharesTotal (sharesPreNorm sel tp))
      = t * (((sharesPreNorm sel tp).base + (sharesPreNorm sel tp).coconut
          + (sharesPreNorm sel tp).hard + (sharesPreNorm sel tp).animal
          + (sharesPreNorm sel tp).castor + (sharesPreNorm sel tp).specialty)
          / sharesTotal (sharesPreNorm sel tp)) := by ring
    _ = t * (sharesTotal (sharesPreNorm sel tp) / sharesTotal (sharesPreNorm sel tp)) := by
          rw [← expand]
    _ = t := by rw [div_self hTne, mul_one]

theorem generate_targeted_close (sel : List String) (t : ℚ) (tp : TargetProps)
    (hnd : sel.Nodup) (hr : InRange tp) (hcat : ∃ o ∈ sel, categorized o) (ht : 0 < t) :
    |dsum (generate_targeted_recipe sel t tp) - t|
      ≤ (generate_targeted_recipe sel t tp).length * (1/200) := by
  have hb : dsum (buildAlloc sel t (sharesNormalized sel tp)) = t :=
    targeted_total sel tp t hnd hr hcat
  have hpos : 0 < dsum (buildAlloc sel t (sharesNormalized sel tp)) := by
    rw [hb]; exact ht
  have hscaled : dsum ((buildAlloc sel t (sharesNormalized sel tp)).map
      (fun p => (p.1, p.2 * (t / dsum (buildAlloc sel t (sharesNormalized sel tp)))))) = t := by
    rw [dsum_scale, hb]
    field_simp
  simp only [generate_targeted_recipe]
  rw [if_pos hpos]
  have hclose := roundDict_close ((buildAlloc sel t (sharesNormalized sel tp)).map
      (fun p => (p.1, p.2 * (t / dsum (buildAlloc sel t (sharesNormalized sel tp))))))
  rw [hscaled] at hclose
  rw [roundDict_length]
  exact hclose

theorem allocStep_facts (st : Dict × ℚ) (X : List String) (a : ℚ)
    (hndX : X.Nodup) (hfresh : ∀ o ∈ X, o ∉ dkeys st.1) :
    dsum (allocStep st X a).1 + (allocStep st X a).2 = dsum st.1 + st.2
    ∧ (∀ o, o ∈ dkeys (allocStep st X a).1 → o ∈ dkeys st.1 ∨ o ∈ X)
    ∧ (∀ o, o ∈ dkeys st.1 → o ∈ dkeys (allocStep st X a).1)
    ∧ (X ≠ [] → ∀ o ∈ X, o ∈ dkeys (allocStep st X a).1) := by
  by_cases h : X = []
  · subst h
    simp only [allocStep, ne_eq, not_true_eq_false, if_neg (by simp : ¬(([] : List String) ≠ []))]
    exact ⟨rfl, fun o ho => Or.inl ho, fun o ho => ho, fun hne => hne.elim⟩
  · have hfr := allocSet_fresh st.1 X (a / X.length) hndX hfresh
    have hlen : (X.length : ℚ) ≠ 0 := by
      simp only [ne_eq, Nat.cast_eq_zero, List.length_eq_zero]
      exact h
    simp only [allocStep, if_pos h, hfr]
    refine ⟨?_, ?_, ?_, ?_⟩
    · rw [dsum_append, dsum_map_const]
      field_simp
    · intro o ho
      rw [dkeys_append, dkeys_map_const] at ho
      exact List.mem_append.mp ho
    · intro o ho
      rw [dkeys_append, dkeys_map_const]
      exact List.mem_append.mpr (Or.inl ho)
    · intro _ o ho
      rw [dkeys_append, dkeys_map_const]
      exact List.mem_append.mpr (Or.inr ho)

theorem allocStep_rem (st : Dict × ℚ) (X : List String) (a : ℚ)
    (h2 : 0 ≤ st.2) (hale : a ≤ st.2) : 0 ≤ (allocStep st X a).2 := by
  by_cases h : X = []
  · subst h
    simp only [allocStep, if_neg (by simp : ¬(([] : List String) ≠ []))]
    exact h2
  · simp only [allocStep, if_pos h]
    linarith

theorem allocStep_rem_le (st : Dict × ℚ) (X : List String) (a : ℚ)
    (ha : 0 ≤ a) : (allocStep st X a).2 ≤ st.2 := by
  by_cases h : X = []
  · subst h
    simp only [allocStep, if_neg (by simp : ¬(([] : List String) ≠ []))]
    exact le_refl _
  · simp only [allocStep, if_pos h]
    linarith

theorem filter_singleton_mem {A : String} {X : List String} (h : A ∈ X) :
    [A].filter (· ∈ X) = [A] := by
  simp [List.filter_singleton, h]

theorem filter_singleton_not {A : String} {X : List String} (h : A ∉ X) :
    [A].filter (· ∈ X) = [] := by
  simp [List.filter_singleton, h]

theorem buildAlloc_single (A : String) (t : ℚ) (s : Shares) (hA : categorized A) :
    ∃ v, buildAlloc [A] t s = [(A, v)] := by
  have hnd : ([A] : List String).Nodup := by simp
  rw [buildAlloc_eq [A] t s hnd]
  rcases hA with hx | hx | hx | hx | hx
  · have hB := filter_singleton_mem hx
    have hH := filter_singleton_not (fun hh => disjHB A hh hx)
    have hC := filter_singleton_not (fun hh => disjCB A hh hx)
    have hS := filter_singleton_not (fun hh => disjSB A hh hx)
    have hP := filter_singleton_not (fun hh => disjPB A hh hx)
    refine ⟨t * s.base / 1, ?_⟩
    rw [hB, hH, hC, hS, hP]
    simp
  · by_cases hAc : A = "Coconut Oil"
    · subst hAc
      have hB := filter_singleton_not cocoNotBase
      have hH := filter_singleton_mem hx
      have hC := filter_singleton_not (fun hh => disjCH _ hh cocoMemHard)
      have hS := filter_singleton_not (fun hh => disjSH _ hh cocoMemHard)
      have hP := filter_singleton_not (fun hh => disjPH _ hh cocoMemHard)
      refine ⟨t * s.coconut, ?_⟩
      rw [hB, hH, hC, hS, hP]
      simp
    · have hB := filter_singleton_not (fun hb => disjHB A hx hb)
      have hH := filter_singleton_mem hx
      have hC := filter_singleton_not (fun hh => disjCH A hh hx)
      have hS := filter_singleton_not (fun hh => disjSH A hh hx)
      have hP := filter_singleton_not (fun hh => disjPH A hh hx)
      have hcoco : "Coconut Oil" ∉ ([A] : List String) := by
        simp only [List.mem_singleton]
        intro he
        exact hAc he.symm
      refine ⟨t * s.hard / 1, ?_⟩
      rw [hB, hH, hC, hS, hP]
      simp [hcoco, hAc]
      exact fun he => hAc he.symm
  · have hB := filter_singleton_not (fun hb => disjSB A hx hb)
    have hH := filter_singleton_not (fun hh => disjSH A hx hh)
    have hC := filter_singleton_not (fun hh => disjSC A hx hh)
    have hS := filter_singleton_mem hx
    have hP := filter_singleton_not (fun hh => disjPS A hh hx)
    refine ⟨t * s.castor / 1, ?_⟩
    rw [hB, hH, hC, hS, hP]
    simp
  · have hB := filter_singleton_not (fun hb => disjCB A hx hb)
    have hH := filter_singleton_not (fun hh => disjCH A hx hh)
    have hC := filter_singleton_mem hx
    have hS := filter_singleton_not (fun hh => disjSC A hh hx)
    have hP := filter_singleton_not (fun hh => disjPC A hh hx)
    refine ⟨t * s.animal / 1, ?_⟩
    rw [hB, hH, hC, hS, hP]
    simp
  · have hB := filter_singleton_not (fun hb => disjPB A hx hb)
    have hH := filter_singleton_not (fun hh => disjPH A hx hh)
    have hC := filter_singleton_not (fun hh => disjPC A hx hh)
    have hS := filter_singleton_not (fun hh => disjPS A hx hh)
    have hP := filter_singleton_mem hx
    refine ⟨t * s.specialty / 1, ?_⟩
    rw [hB, hH, hC, hS, hP]
    simp

theorem targeted_single (A : String) (t : ℚ) (tp : TargetProps)
    (hA : categorized A) (hr : InRange tp) (ht : 0 < t) :
    generate_targeted_recipe [A] t tp = [(A, round2 t)] := by
  obtain ⟨v, hv⟩ := buildAlloc_single A t (sharesNormalized [A] tp) hA
  have htot : dsum (buildAlloc [A] t (sharesNormalized [A] tp)) = t :=
    targeted_total [A] tp t (by simp) hr ⟨A, by simp, hA⟩
  have hvt : v = t := by
    rw [hv] at htot
    simpa using htot
  subst hvt
  simp only [generate_targeted_recipe, hv]
  have hdv : dsum [(A, v)] = v := by simp
  rw [hdv, if_pos ht]
  simp only [List.map_cons, List.map_nil, roundDict]
  rw [div_self (ne_of_gt ht), mul_one]

/-- C2 (amended): a single selected ingredient receives the full requested
mass (rounded to 2 decimals) in the untargeted path for ANY ingredient
name; when a target property vector is supplied the same holds provided
the ingredient belongs to some allocation category and the targets lie in
the documented ranges — an uncategorized single ingredient instead yields
an empty result (see the counterexample). -/
theorem C2_amended (A : String) (lbs : ℚ) (tp : TargetProps) :
    generate_recipe [A] lbs none = .ok [(A, round2 (lbs * 16))]
    ∧ (categorized A → InRange tp → 0 < lbs →
        generate_recipe [A] lbs (some tp) = .ok [(A, round2 (lbs * 16))]) := by
  constructor
  · simp [generate_recipe, dset, roundDict, Except.map]
  · intro hA hr hpos
    have h := targeted_single A (lbs * 16) tp hA hr (by positivity)
    simp [generate_recipe, h]

/-- C2 (counterexample): with a target vector supplied, a single selected
ingredient that belongs to no allocation category gets an EMPTY recipe,
not 100% of the total mass. -/
theorem C2_counterexample :
    generate_recipe ["Lanolin"] 6.25 (some ⟨some 40, some 15, some 55, some 25, some 30⟩)
      = .ok []
    ∧ (Except.ok ([] : Dict) : Except String Dict) ≠ .ok [("Lanolin", (100 : ℚ))] := by
  constructor
  · simp [generate_recipe, generate_targeted_recipe, buildAlloc, allocSet, allocAdd,
      sharesNormalized, normalizeShares, sharesPreNorm, compensate, sharesBase,
      sharesTotal, baseOils, hardOils, superFatOils, conditioningOils, specialtyOils,
      roundDict, dsum]
  · simp

theorem round_close_of_sum (d : Dict) (t : ℚ) (hsum : dsum d = t) :
    |dsum (roundDict d) - t| ≤ (roundDict d).length * (1/200) := by
  have h := roundDict_close d
  rw [hsum] at h
  rw [roundDict_length]
  exact h

theorem round_close_of_near (d : Dict) (t : ℚ) (h : |dsum d - t| ≤ 1/100) :
    |dsum (roundDict d) - t| ≤ 1/100 + (roundDict d).length * (1/200) := by
  have h2 := roundDict_close d
  rw [roundDict_length]
  calc |dsum (roundDict d) - t|
      ≤ |dsum (roundDict d) - dsum d| + |dsum d - t| := abs_sub_le _ _ _
    _ ≤ d.length * (1/200) + 1/100 := add_le_add h2 h
    _ = 1/100 + d.length * (1/200) := by ring

theorem pair_dict (b0 h0 : String) (v1 v2 : ℚ) (hbh : b0 ≠ h0) :
    dset (dset [] b0 v1) h0 v2 = [(b0, v1), (h0, v2)] := by
  simp [dset, hbh]

theorem pair_close (b0 h0 : String) (t c1 c2 : ℚ) (hbh : b0 ≠ h0) (hc : c1 + c2 = 1) :
    |dsum (roundDict (dset (dset [] b0 (t * c1)) h0 (t * c2))) - t|
      ≤ 1/100 + (roundDict (dset (dset [] b0 (t * c1)) h0 (t * c2))).length * (1/200) := by
  rw [pair_dict b0 h0 _ _ hbh]
  have hsum : dsum [(b0, t * c1), (h0, t * c2)] = t := by
    simp [dsum]
    calc t * c1 + t * c2 = t * (c1 + c2) := by ring
      _ = t := by rw [hc, mul_one]
  have := round_close_of_sum [(b0, t * c1), (h0, t * c2)] t hsum
  have hlen : ((roundDict [(b0, t * c1), (h0, t * c2)]).length : ℚ) * (1/200) ≥ 0 := by
    positivity
  linarith

theorem triple_dict (b0 h0 o2 : String) (v1 v2 v3 : ℚ)
    (h1 : b0 ≠ h0) (h2 : b0 ≠ o2) (h3 : h0 ≠ o2) :
    dset (dset (dset [] b0 v1) h0 v2) o2 v3 = [(b0, v1), (h0, v2), (o2, v3)] := by
  simp [dset, h1, h2, h3]

theorem triple_close (b0 h0 o2 : String) (t c1 c2 c3 : ℚ)
    (h1 : b0 ≠ h0) (h2 : b0 ≠ o2) (h3 : h0 ≠ o2) (hc : c1 + c2 + c3 = 1) :
    |dsum (roundDict (dset (dset (dset [] b0 (t * c1)) h0 (t * c2)) o2 (t * c3))) - t|
      ≤ 1/100 + (roundDict (dset (dset (dset [] b0 (t * c1)) h0 (t * c2)) o2 (t * c3))).length
          * (1/200) := by
  rw [triple_dict b0 h0 o2 _ _ _ h1 h2 h3]
  have hsum : dsum [(b0, t * c1), (h0, t * c2), (o2, t * c3)] = t := by
    simp [dsum]
    calc t * c1 + (t * c2 + t * c3) = t * (c1 + c2 + c3) := by ring
      _ = t := by rw [hc, mul_one]
  have := round_close_of_sum [(b0, t * c1), (h0, t * c2), (o2, t * c3)] t hsum
  have hlen : ((roundDict [(b0, t * c1), (h0, t * c2), (o2, t * c3)]).length : ℚ) * (1/200) ≥ 0 := by
    positivity
  linarith

theorem multi_close (sel : List String) (t : ℚ) (d : Dict)
    (hnd : sel.Nodup) (ht : 0 < t) (hcat : ∃ o ∈ sel, categorized o)
    (hd : d =
      (let st1 := allocStep ([], t) (sel.filter (· ∈ baseOils)) (t * 0.45)
       let st2 := allocStep st1 (sel.filter (· ∈ hardOils)) (min (t * 0.30) st1.2)
       let st3 := allocStep st2 (sel.filter (· ∈ conditioningOils)) (min (t * 0.18) st2.2)
       let st4 := allocStep st3 (sel.filter (· ∈ superFatOils)) (min (t * 0.07) st3.2)
       let st5 := allocStep st4 (sel.filter (· ∈ specialtyOils)) (min (t * 0.05) st4.2)
       if 1/100 < st5.2 ∧ st5.1 ≠ [] then
         st5.1.map (fun p => (p.1, p.2 + st5.2 / st5.1.length))
       else st5.1)) :
    |dsum (roundDict d) - t| ≤ 1/100 + (roundDict d).length * (1/200) := by
  simp only [] at hd
  set S1 := allocStep (([] : Dict), t) (sel.filter (· ∈ baseOils)) (t * 0.45) with hS1
  set S2 := allocStep S1 (sel.filter (· ∈ hardOils)) (min (t * 0.30) S1.2) with hS2
  set S3 := allocStep S2 (sel.filter (· ∈ conditioningOils)) (min (t * 0.18) S2.2) with hS3
  set S4 := allocStep S3 (sel.filter (· ∈ superFatOils)) (min (t * 0.07) S3.2) with hS4
  set S5 := allocStep S4 (sel.filter (· ∈ specialtyOils)) (min (t * 0.05) S4.2) with hS5
  have f1 := allocStep_facts ([], t) (sel.filter (· ∈ baseOils)) (t * 0.45)
    (hnd.filter _) (by intro o _; simp [dkeys])
  have keys1 : ∀ o, o ∈ dkeys S1.1 → o ∈ baseOils := by
    intro o ho
    rcases f1.2.1 o ho with h | h
    · simp [dkeys] at h
    · exact (mem_filterMem.mp h).2
  have f2 := allocStep_facts S1 (sel.filter (· ∈ hardOils)) (min (t * 0.30) S1.2)
    (hnd.filter _) (by
      intro o ho hk
      exact disjHB o (mem_filterMem.mp ho).2 (keys1 o hk))
  have keys2 : ∀ o, o ∈ dkeys S2.1 → o ∈ baseOils ∨ o ∈ hardOils := by
    intro o ho
    rcases f2.2.1 o ho with h | h
    · exact Or.inl (keys1 o h)
    · exact Or.inr (mem_filterMem.mp h).2
  have f3 := allocStep_facts S2 (sel.filter (· ∈ conditioningOils)) (min (t * 0.18) S2.2)
    (hnd.filter _) (by
      intro o ho hk
      have hoc := (mem_filterMem.mp ho).2
      rcases keys2 o hk with h | h
      · exact disjCB o hoc h
      · exact disjCH o hoc h)
  have keys3 : ∀ o, o ∈ dkeys S3.1 → (o ∈ baseOils ∨ o ∈ hardOils) ∨ o ∈ conditioningOils := by
    intro o ho
    rcases f3.2.1 o ho with h | h
    · exact Or.inl (keys2 o h)
    · exact Or.inr (mem_filterMem.mp h).2
  have f4 := allocStep_facts S3 (sel.filter (· ∈ superFatOils)) (min (t * 0.07) S3.2)
    (hnd.filter _) (by
      intro o ho hk
      have hos := (mem_filterMem.mp ho).2
      rcases keys3 o hk with (h | h) | h
      · exact disjSB o hos h
      · exact disjSH o hos h
      · exact disjSC o hos h)
  have keys4 : ∀ o, o ∈ dkeys S4.1 →
      ((o ∈ baseOils ∨ o ∈ hardOils) ∨ o ∈ conditioningOils) ∨ o ∈ superFatOils := by
    intro o ho
    rcases f4.2.1 o ho with h | h
    · exact Or.inl (keys3 o h)
    · exact Or.inr (mem_filterMem.mp h).2
  have f5 := allocStep_facts S4 (sel.filter (· ∈ specialtyOils)) (min (t * 0.05) S4.2)
    (hnd.filter _) (by
      intro o ho hk
      have hop := (mem_filterMem.mp ho).2
      rcases keys4 o hk with ((h | h) | h) | h
      · exact disjPB o hop h
      · exact disjPH o hop h
      · exact disjPC o hop h
      · exact disjPS o hop h)
  have sum1 : dsum S1.1 + S1.2 = t := by
    rw [hS1, f1.1]; simp
  have sum2 : dsum S2.1 + S2.2 = t := by
    rw [hS2, f2.1]; exact sum1
  have sum3 : dsum S3.1 + S3.2 = t := by
    rw [hS3, f3.1]; exact sum2
  have sum4 : dsum S4.1 + S4.2 = t := by
    rw [hS4, f4.1]; exact sum3
  have sum5 : dsum S5.1 + S5.2 = t := by
    rw [hS5, f5.1]; exact sum4
  have rem1 : 0 ≤ S1.2 := by
    rw [hS1]
    exact allocStep_rem _ _ _ (by simp; linarith) (by simp; linarith)
  have rem2 : 0 ≤ S2.2 := by
    rw [hS2]
    exact allocStep_rem _ _ _ rem1 (min_le_right _ _)
  have rem3 : 0 ≤ S3.2 := by
    rw [hS3]
    exact allocStep_rem _ _ _ rem2 (min_le_right _ _)
  have rem4 : 0 ≤ S4.2 := by
    rw [hS4]
    exact allocStep_rem _ _ _ rem3 (min_le_right _ _)
  have rem5 : 0 ≤ S5.2 := by
    rw [hS5]
    exact allocStep_rem _ _ _ rem4 (min_le_right _ _)
  have hne5 : S5.1 ≠ [] := by
    obtain ⟨o, ho, hcato⟩ := hcat
    have hkey : o ∈ dkeys S5.1 := by
      rcases hcato with hx | hx | hx | hx | hx
      · have hmem : o ∈ sel.filter (· ∈ baseOils) := mem_filterMem.mpr ⟨ho, hx⟩
        exact f5.2.2.1 _ (f4.2.2.1 _ (f3.2.2.1 _ (f2.2.2.1 _
          (f1.2.2.2 (List.ne_nil_of_mem hmem) o hmem))))
      · have hmem : o ∈ sel.filter (· ∈ hardOils) := mem_filterMem.mpr ⟨ho, hx⟩
        exact f5.2.2.1 _ (f4.2.2.1 _ (f3.2.2.1 _
          (f2.2.2.2 (List.ne_nil_of_mem hmem) o hmem)))
      · have hmem : o ∈ sel.filter (· ∈ superFatOils) := mem_filterMem.mpr ⟨ho, hx⟩
        exact f5.2.2.1 _ (f4.2.2.2 (List.ne_nil_of_mem hmem) o hmem)
      · have hmem : o ∈ sel.filter (· ∈ conditioningOils) := mem_filterMem.mpr ⟨ho, hx⟩
        exact f5.2.2.1 _ (f4.2.2.1 _ (f3.2.2.2 (List.ne_nil_of_mem hmem) o hmem))
      · have hmem : o ∈ sel.filter (· ∈ specialtyOils) := mem_filterMem.mpr ⟨ho, hx⟩
        exact f5.2.2.2 (List.ne_nil_of_mem hmem) o hmem
    intro hnil
    rw [hnil] at hkey
    exact List.not_mem_nil o hkey
  by_cases hcond : 1/100 < S5.2 ∧ S5.1 ≠ []
  · rw [hd, if_pos hcond]
    have hlen : ((S5.1.length : ℚ)) ≠ 0 := by
      simp only [ne_eq, Nat.cast_eq_zero, List.length_eq_zero]
      exact hne5
    have hsum : dsum (S5.1.map (fun p => (p.1, p.2 + S5.2 / S5.1.length))) = t := by
      rw [dsum_shift]
      have : (S5.1.length : ℚ) * (S5.2 / S5.1.length) = S5.2 := by
        field_simp
      rw [this]
      exact sum5
    have hb := round_close_of_sum _ t hsum
    have hpos : (0:ℚ) ≤ (roundDict (S5.1.map (fun p => (p.1, p.2 + S5.2 / S5.1.length)))).length
        * (1/200) := by positivity
    linarith
  · rw [hd, if_neg hcond]
    have hrem : S5.2 ≤ 1/100 := by
      rcases not_and_or.mp hcond with h | h
      · linarith [not_lt.mp h]
      · exact absurd hne5 h
    have hnear : |dsum S5.1 - t| ≤ 1/100 := by
      have : dsum S5.1 - t = -S5.2 := by linarith
      rw [this, abs_neg, abs_of_nonneg rem5]
      exact hrem
    exact round_close_of_near _ t hnear

/-- C1 (amended): for every distinct selection containing at least one
categorized ingredient and positive requested mass (targets, when
supplied, within the documented ranges), the sum of the returned weights
equals the requested total mass `lbs * 16` oz to within
`0.01 + 0.005 * n` where `n` is the number of returned entries.  The
plain 0.01 bound of the original claim fails (see the counterexample):
rounding each of `n` entries to 2 decimals can move the sum by up to
`0.005 * n`. -/
theorem C1_amended (sel : List String) (lbs : ℚ) (tps : Option TargetProps) (out : Dict)
    (hnd : sel.Nodup) (hne : sel ≠ []) (hpos : 0 < lbs)
    (hcat : ∃ o ∈ sel, categorized o)
    (hrange : ∀ tp, tps = some tp → InRange tp)
    (hout : generate_recipe sel lbs tps = .ok out) :
    |dsum out - lbs * 16| ≤ 1/100 + out.length * (1/200) := by
  rcases sel with _ | ⟨o0, rest⟩
  · exact absurd rfl hne
  rcases tps with _ | tp
  · rcases rest with _ | ⟨o1, rest2⟩
    · -- one oil
      have hval : generate_recipe [o0] lbs none = .ok (roundDict [(o0, lbs * 16)]) := rfl
      rw [hval] at hout
      obtain rfl : roundDict [(o0, lbs * 16)] = out := Except.ok.inj hout
      have hb := round_close_of_sum [(o0, lbs * 16)] (lbs * 16) (by simp)
      have h0 : (0:ℚ) ≤ ((roundDict [(o0, lbs * 16)]).length : ℚ) * (1/200) := by positivity
      linarith
    rcases rest2 with _ | ⟨o2, rest3⟩
    · -- two oils
      have hval : generate_recipe [o0, o1] lbs none = Except.map roundDict
          (match [o0, o1].filter (· ∈ baseOils), [o0, o1].filter (· ∈ hardOils) with
           | b0 :: _, h0 :: _ =>
             .ok (dset (dset [] b0 (lbs * 16 * 0.70)) h0 (lbs * 16 * 0.30))
           | _, _ => .ok (dset (dset [] o0 (lbs * 16 * 0.60)) o1 (lbs * 16 * 0.40))) := rfl
      rw [hval] at hout
      rcases hBe : [o0, o1].filter (· ∈ baseOils) with _ | ⟨b0, Br⟩ <;>
        rcases hHe : [o0, o1].filter (· ∈ hardOils) with _ | ⟨h0, Hr⟩ <;>
        rw [hBe, hHe] at hout <;> dsimp only [Except.map] at hout
      · obtain rfl := (Except.ok.inj hout).symm
        have hne01 : o0 ≠ o1 := by simpa using (List.nodup_cons.mp hnd).1
        exact pair_close o0 o1 (lbs * 16) 0.60 0.40 hne01 (by norm_num)
      · obtain rfl := (Except.ok.inj hout).symm
        have hne01 : o0 ≠ o1 := by simpa using (List.nodup_cons.mp hnd).1
        exact pair_close o0 o1 (lbs * 16) 0.60 0.40 hne01 (by norm_num)
      · obtain rfl := (Except.ok.inj hout).symm
        have hne01 : o0 ≠ o1 := by simpa using (List.nodup_cons.mp hnd).1
        exact pair_close o0 o1 (lbs * 16) 0.60 0.40 hne01 (by norm_num)
      · obtain rfl := (Except.ok.inj hout).symm
        have hb0 : b0 ∈ baseOils :=
          (mem_filterMem.mp (hBe ▸ List.mem_cons_self b0 Br)).2
        have hh0 : h0 ∈ hardOils :=
          (mem_filterMem.mp (hHe ▸ List.mem_cons_self h0 Hr)).2
        have hbh : b0 ≠ h0 := fun he => disjHB h0 hh0 (he ▸ hb0)
        exact pair_close b0 h0 (lbs * 16) 0.70 0.30 hbh (by norm_num)
    rcases rest3 with _ | ⟨o3, rest4⟩
    · -- three oils
      have hval : generate_recipe [o0, o1, o2] lbs none = Except.map roundDict
          (match [o0, o1, o2].filter (· ∈ baseOils), [o0, o1, o2].filter (· ∈ hardOils) with
           | b0 :: _, h0 :: _ =>
             (match [o0, o1, o2].filter (· ∉ [b0, h0]) with
              | other :: _ =>
                .ok (dset (dset (dset [] b0 (lbs * 16 * 0.50)) h0 (lbs * 16 * 0.30))
                      other (lbs * 16 * 0.20))
              | [] => .error "IndexError: list index out of range")
           | _, _ => .ok (allocSet [] [o0, o1, o2] (lbs * 16 / 3))) := rfl
      rw [hval] at hout
      rcases hBe : [o0, o1, o2].filter (· ∈ baseOils) with _ | ⟨b0, Br⟩ <;>
        rcases hHe : [o0, o1, o2].filter (· ∈ hardOils) with _ | ⟨h0, Hr⟩ <;>
        rw [hBe, hHe] at hout <;> dsimp only [Except.map] at hout
      · obtain rfl := (Except.ok.inj hout).symm
        have hsum : dsum (allocSet [] [o0, o1, o2] (lbs * 16 / 3)) = lbs * 16 := by
          rw [allocSet_fresh [] [o0, o1, o2] _ hnd (by intro o _; simp [dkeys])]
          simp [dsum_map_const]
          ring
        have hb := round_close_of_sum _ (lbs * 16) hsum
        have h0 : (0:ℚ) ≤ ((roundDict (allocSet [] [o0, o1, o2] (lbs * 16 / 3))).length : ℚ)
            * (1/200) := by positivity
        linarith
      · obtain rfl := (Except.ok.inj hout).symm
        have hsum : dsum (allocSet [] [o0, o1, o2] (lbs * 16 / 3)) = lbs * 16 := by
          rw [allocSet_fresh [] [o0, o1, o2] _ hnd (by intro o _; simp [dkeys])]
          simp [dsum_map_const]
          ring
        have hb := round_close_of_sum _ (lbs * 16) hsum
        have h0 : (0:ℚ) ≤ ((roundDict (allocSet [] [o0, o1, o2] (lbs * 16 / 3))).length : ℚ)
            * (1/200) := by positivity
        linarith
      · obtain rfl := (Except.ok.inj hout).symm
        have hsum : dsum (allocSet [] [o0, o1, o2] (lbs * 16 / 3)) = lbs * 16 := by
          rw [allocSet_fresh [] [o0, o1, o2] _ hnd (by intro o _; simp [dkeys])]
          simp [dsum_map_const]
          ring
        have hb := round_close_of_sum _ (lbs * 16) hsum
        have h0 : (0:ℚ) ≤ ((roundDict (allocSet [] [o0, o1, o2] (lbs * 16 / 3))).length : ℚ)
            * (1/200) := by positivity
        linarith
      · rcases hOe : [o0, o1, o2].filter (· ∉ [b0, h0]) with _ | ⟨other, Or2⟩ <;>
          rw [hOe] at hout <;> dsimp only [Except.map] at hout
        · exact absurd hout (by simp)
        · obtain rfl := (Except.ok.inj hout).symm
          have hb0 : b0 ∈ baseOils :=
            (mem_filterMem.mp (hBe ▸ List.mem_cons_self b0 Br)).2
          have hh0 : h0 ∈ hardOils :=
            (mem_filterMem.mp (hHe ▸ List.mem_cons_self h0 Hr)).2
          have hbh : b0 ≠ h0 := fun he => disjHB h0 hh0 (he ▸ hb0)
          have hother : other ∈ [o0, o1, o2].filter (· ∉ [b0, h0]) :=
            hOe ▸ List.mem_cons_self other Or2
          have hop : other ∉ [b0, h0] := by
            have := (List.mem_filter.mp hother).2
            simpa using this
          have hob : b0 ≠ other := fun he => hop (he ▸ List.mem_cons_self b0 [h0])
          have hoh : h0 ≠ other := by
            intro he
            exact hop (he ▸ (by simp : h0 ∈ [b0, h0]))
          exact triple_close b0 h0 other (lbs * 16) 0.50 0.30 0.20 hbh hob hoh (by norm_num)
    · -- four or more oils
      have hl1 : (o0 :: o1 :: o2 :: o3 :: rest4).length ≠ 1 := by simp
      have hl2 : (o0 :: o1 :: o2 :: o3 :: rest4).length ≠ 2 := by simp
      have hl3 : (o0 :: o1 :: o2 :: o3 :: rest4).length ≠ 3 := by simp
      simp only [generate_recipe, if_neg hl1, if_neg hl2, if_neg hl3] at hout
      obtain rfl := (Except.ok.inj hout).symm
      exact multi_close (o0 :: o1 :: o2 :: o3 :: rest4) (lbs * 16) _ hnd (by positivity)
        hcat rfl
  · -- targeted
    simp only [generate_recipe] at hout
    obtain rfl := (Except.ok.inj hout).symm
    have hb := generate_targeted_close (o0 :: rest) (lbs * 16) tp hnd (hrange tp rfl)
      hcat (by positivity)
    have h0 : (0:ℚ) ≤ ((generate_targeted_recipe (o0 :: rest) (lbs * 16) tp).length : ℚ)
        * (1/200) := by positivity
    linarith

/-- C1 (counterexample): three equally-split base oils at a requested
total of 100.0047 oz (6.25029375 lb) each round down to 33.33, so the
returned sum 99.99 misses the requested total by 0.0147 > 0.01. -/
theorem C1_counterexample :
    generate_recipe ["Olive Oil", "Sunflower Oil", "Canola Oil"] 6.25029375 none
      = .ok [("Olive Oil", 33.33), ("Sunflower Oil", 33.33), ("Canola Oil", 33.33)]
    ∧ ¬ |dsum [("Olive Oil", (33.33:ℚ)), ("Sunflower Oil", 33.33), ("Canola Oil", 33.33)]
        - 6.25029375 * 16| ≤ 1/100 := by
  have hround : round2 (6.25029375 * 16 / 3) = 3333/100 :=
    round2_eq _ 3333 (by norm_num) (by norm_num)
  constructor
  · have hval : generate_recipe ["Olive Oil", "Sunflower Oil", "Canola Oil"] 6.25029375 none
        = .ok (roundDict (allocSet [] ["Olive Oil", "Sunflower Oil", "Canola Oil"]
            (6.25029375 * 16 / 3))) := rfl
    rw [hval]
    have hs : allocSet [] ["Olive Oil", "Sunflower Oil", "Canola Oil"] (6.25029375 * 16 / 3)
        = [("Olive Oil", 6.25029375 * 16 / 3), ("Sunflower Oil", 6.25029375 * 16 / 3),
           ("Canola Oil", 6.25029375 * 16 / 3)] := rfl
    rw [hs]
    simp only [roundDict, List.map_cons, List.map_nil, hround]
    norm_num
  · intro hle
    rw [abs_le] at hle
    have h1 := hle.1
    norm_num [dsum] at h1

theorem C1_witness :
    (["Olive Oil"] : List String).Nodup
    ∧ (["Olive Oil"] : List String) ≠ []
    ∧ (0:ℚ) < 1
    ∧ (∃ o ∈ ["Olive Oil"], categorized o)
    ∧ generate_recipe ["Olive Oil"] 1 none = .ok [("Olive Oil", 16)]
    ∧ |dsum [("Olive Oil", (16:ℚ))] - 1 * 16|
        ≤ 1/100 + ([("Olive Oil", (16:ℚ))] : Dict).length * (1/200) := by
  have hout : generate_recipe ["Olive Oil"] 1 none = .ok [("Olive Oil", 16)] := by
    have hval : generate_recipe ["Olive Oil"] 1 none
        = .ok (roundDict [("Olive Oil", 1 * 16)]) := rfl
    rw [hval]
    have hr : round2 ((1:ℚ) * 16) = 1600/100 := round2_eq _ 1600 (by norm_num) (by norm_num)
    simp only [roundDict, List.map_cons, List.map_nil, hr]
    norm_num
  refine ⟨by simp, by simp, by norm_num, ⟨"Olive Oil", by simp, by decide⟩, hout, ?_⟩
  exact C1_amended ["Olive Oil"] 1 none [("Olive Oil", 16)] (by simp) (by simp) (by norm_num)
    ⟨"Olive Oil", by simp, by decide⟩ (by intro tp h; simp at h) hout

/-- C3 (amended): when the base category has no selected ingredient, the
cleansing (coconut) share is multiplied by 0.6, the creamy/animal share
by 1.8 and the hard share by 1.5, and — provided the running total of the
shares is positive — dividing by the running total makes the shares sum
to exactly 1.  Without the positivity proviso the claim fails (see the
counterexample): the division is guarded by `total_pct > 0`. -/
theorem C3_amended (sel : List String) (tp : TargetProps)
    (hnb : sel.filter (· ∈ baseOils) = [])
    (hpos : 0 < sharesTotal (sharesPreNorm sel tp)) :
    (sharesPreNorm sel tp).coconut = 0.6 * (sharesBase sel tp).coconut
    ∧ (sharesPreNorm sel tp).animal = 1.8 * (sharesBase sel tp).animal
    ∧ (sharesPreNorm sel tp).hard = 1.5 * (sharesBase sel tp).hard
    ∧ sharesTotal (sharesNormalized sel tp) = 1 := by
  have hTne : sharesTotal (sharesPreNorm sel tp) ≠ 0 := ne_of_gt hpos
  refine ⟨?_, ?_, ?_, ?_⟩
  · unfold sharesPreNorm compensate
    rw [if_neg (not_not_intro hnb)]
    try dsimp only
    by_cases hc : "Coconut Oil" ∈ sel.filter (· ∈ hardOils)
    · rw [if_pos hc]
      ring
    · rw [if_neg hc]
      have h0 : (sharesBase sel tp).coconut = 0 := by simp [sharesBase, hc]
      rw [h0]
      ring
  · unfold sharesPreNorm compensate
    rw [if_neg (not_not_intro hnb)]
    try dsimp only
    by_cases hcn : sel.filter (· ∈ conditioningOils) = []
    · rw [if_neg (not_not_intro hcn)]
      have h0 : (sharesBase sel tp).animal = 0 := by simp [sharesBase, hcn]
      rw [h0]
      ring
    · rw [if_pos hcn]
      ring
  · unfold sharesPreNorm compensate
    rw [if_neg (not_not_intro hnb)]
    try dsimp only
    by_cases hh : (sel.filter (· ∈ hardOils)).filter (· ≠ "Coconut Oil") = []
    · rw [if_neg (not_not_intro hh)]
      have h0 : (sharesBase sel tp).hard = 0 := by
        simp only [sharesBase]
        rw [if_neg (fun hne => hne hh)]
      rw [h0]
      ring
    · rw [if_pos hh]
      ring
  · unfold sharesNormalized normalizeShares
    rw [if_pos hpos]
    simp only [sharesTotal] at hTne ⊢
    rw [div_add_div_same, div_add_div_same, div_add_div_same, div_add_div_same,
      div_add_div_same]
    exact div_self hTne

/-- C3 (counterexample): with no selected ingredient in any category the
base category is empty, yet the shares are NOT renormalized (the running
total is 0, the guard skips the division) and they sum to 0, not 1. -/
theorem C3_counterexample :
    ([] : List String).filter (· ∈ baseOils) = []
    ∧ sharesTotal (sharesNormalized [] ⟨some 40, some 15, some 55, some 25, some 30⟩) = 0
    ∧ sharesTotal (sharesNormalized [] ⟨some 40, some 15, some 55, some 25, some 30⟩) ≠ 1 := by
  have h0 : sharesTotal (sharesNormalized [] ⟨some 40, some 15, some 55, some 25, some 30⟩)
      = 0 := by
    norm_num [sharesNormalized, normalizeShares, sharesPreNorm, compensate, sharesBase,
      sharesTotal]
  exact ⟨rfl, h0, by rw [h0]; norm_num⟩

theorem C3_witness :
    (["Beef Tallow"] : List String).filter (· ∈ baseOils) = []
    ∧ 0 < sharesTotal (sharesPreNorm ["Beef Tallow"] ⟨some 40, some 15, some 55, some 25, some 30⟩)
    ∧ ((sharesPreNorm ["Beef Tallow"] ⟨some 40, some 15, some 55, some 25, some 30⟩).coconut
        = 0.6 * (sharesBase ["Beef Tallow"] ⟨some 40, some 15, some 55, some 25, some 30⟩).coconut
       ∧ (sharesPreNorm ["Beef Tallow"] ⟨some 40, some 15, some 55, some 25, some 30⟩).animal
        = 1.8 * (sharesBase ["Beef Tallow"] ⟨some 40, some 15, some 55, some 25, some 30⟩).animal
       ∧ (sharesPreNorm ["Beef Tallow"] ⟨some 40, some 15, some 55, some 25, some 30⟩).hard
        = 1.5 * (sharesBase ["Beef Tallow"] ⟨some 40, some 15, some 55, some 25, some 30⟩).hard
       ∧ sharesTotal (sharesNormalized ["Beef Tallow"] ⟨some 40, some 15, some 55, some 25, some 30⟩) = 1) := by
  have hnb : (["Beef Tallow"] : List String).filter (· ∈ baseOils) = [] := by decide
  have hpos : 0 < sharesTotal
      (sharesPreNorm ["Beef Tallow"] ⟨some 40, some 15, some 55, some 25, some 30⟩) := by
    exact preNorm_total_pos ["Beef Tallow"] ⟨some 40, some 15, some 55, some 25, some 30⟩
      (by norm_num [InRange]) ⟨"Beef Tallow", by simp, by decide⟩
  exact ⟨hnb, hpos, C3_amended ["Beef Tallow"] ⟨some 40, some 15, some 55, some 25, some 30⟩
    hnb hpos⟩

theorem C2_witness :
    categorized "Olive Oil"
    ∧ InRange ⟨some 40, some 15, some 55, some 25, some 30⟩
    ∧ (0:ℚ) < 6.25
    ∧ (generate_recipe ["Olive Oil"] 6.25 none = .ok [("Olive Oil", round2 (6.25 * 16))]
       ∧ generate_recipe ["Olive Oil"] 6.25 (some ⟨some 40, some 15, some 55, some 25, some 30⟩)
          = .ok [("Olive Oil", round2 (6.25 * 16))])
    ∧ generate_recipe ["Lanolin"] 6.25 none = .ok [("Lanolin", round2 (6.25 * 16))] :=
  ⟨by decide, by norm_num [InRange], by norm_num,
   ⟨(C2_amended "Olive Oil" 6.25 ⟨some 40, some 15, some 55, some 25, some 30⟩).1,
    (C2_amended "Olive Oil" 6.25 ⟨some 40, some 15, some 55, some 25, some 30⟩).2
      (by decide) (by norm_num [InRange]) (by norm_num)⟩,
   (C2_amended "Lanolin" 6.25 ⟨some 40, some 15, some 55, some 25, some 30⟩).1⟩
